import Mathlib

/-!
# Teleport: workflow engine and API extraction

A shallow embedding of `workflow.go` and `api.go`.

* Go `error` values are the inductive `GoError`; a type switch on an error is a
  `match` on its constructor.
* A Go function that may return normally, end the process or panic yields a `Ctl`.
* Mutable process state is passed explicitly (`Machine`); what the engine itself
  does to the outside world (step calls, log lines, exit requests) is recorded
  in a `Trace` that steps cannot touch.
* Library code that is not part of the repository (logrus, net/http,
  encoding/json, starlib) is embedded by its documented behaviour or taken as a
  field of `Env`.
-/

namespace Teleport

/-! ## workflow.go -/

/-- ExitCode is `type ExitCode int`. -/
abbrev ExitCode := Int

/-- Fail is `iota + 3` at index 0. -/
def Fail : ExitCode := 3

/-- Retry is `iota + 3` at index 1. -/
def Retry : ExitCode := 4

/-- The string type `errorClass` of api.go. -/
abbrev errorClass := String

def NetworkError : errorClass := "NetworkError"
def Http4XXError : errorClass := "Http4XXError"
def Http5XXError : errorClass := "Http5XXError"
def InvalidBodyError : errorClass := "InvalidBodyError"

/-- Go error values, by dynamic type: `*apiError` (api.go), `*WorkflowError`
(workflow.go), and every other error (`errors.New`, `fmt.Errorf`), of which only
the message is kept. -/
inductive GoError where
  | plain (msg : String)
  | apiError (cls : errorClass) (err : GoError)
  | WorkflowError (exitCode : ExitCode) (err : GoError)
  deriving Repr, DecidableEq

/-- The `Error()` method: `"%s: %s"` of class and cause for an apiError, the
cause's text for a WorkflowError. -/
def GoError.Error : GoError → String
  | .plain msg => msg
  | .apiError cls err => cls ++ ": " ++ err.Error
  | .WorkflowError _ err => err.Error

def WorkflowFail (err : GoError) : GoError := .WorkflowError Fail err

def WorkflowRetry (err : GoError) : GoError := .WorkflowError Retry err

/-- How a call ends: it returns a value, the process exits with a code, or the
goroutine panics. -/
inductive Ctl (α : Type) where
  | returned (a : α)
  | exited (code : Int)
  | panicked (msg : String)
  deriving Repr, DecidableEq

/-- Log levels of logrus used by the engine. -/
inductive Level where
  | fatal | error | warn
  deriving Repr, DecidableEq

/-- Observable actions of the workflow engine, in the order they happen. -/
inductive Event where
  | stepCalled (i : Nat)
  | logged (lvl : Level) (msg : String)
  | exitRequested (code : Int)
  | successCalled
  deriving Repr, DecidableEq

abbrev Trace := List Event

/-- The logger's `ExitFunc`: `os.Exit` by default, or an override that returns
to the caller (the case the comment in `run` mentions). -/
inductive ExitFunc where
  | osExit
  | overridden
  deriving Repr, DecidableEq

/-- logrus `Logger.Exit(code)`: calls `ExitFunc(code)`. With `os.Exit` the
process ends there; an overriding function returns. -/
def logExit (f : ExitFunc) (code : Int) (tr : Trace) : Ctl Unit × Trace :=
  match f with
  | .osExit => (.exited code, tr ++ [.exitRequested code])
  | .overridden => (.returned (), tr ++ [.exitRequested code])

/-- logrus `Error`: writes one entry at level error. -/
def logError (msg : String) (tr : Trace) : Trace :=
  tr ++ [.logged .error msg]

/-- logrus `Warn`: writes one entry at level warning. -/
def logWarn (msg : String) (tr : Trace) : Trace :=
  tr ++ [.logged .warn msg]

/-- logrus `Fatal`: writes one entry at level fatal, then calls
`Logger.Exit(1)`. -/
def logFatal (f : ExitFunc) (msg : String) (tr : Trace) : Ctl Unit × Trace :=
  logExit f 1 (tr ++ [.logged .fatal msg])

/-- The state steps act on: the current workflow's `RowCounter` and whatever
else the step closures capture. -/
structure Machine (σ : Type) where
  RowCounter : Int
  heap : σ

/-- The type `step = func() error`, acting on the machine. -/
abbrev step (σ : Type) := Machine σ → Ctl (Option GoError) × Machine σ

/-- Workflow.handleError (workflow.go 59-72). -/
def handleError (f : ExitFunc) (err : GoError) (tr : Trace) : Ctl Unit × Trace :=
  match err with
  | .WorkflowError exitCode _ =>
    let r : Ctl Unit × Trace :=
      if exitCode = Fail then logFatal f err.Error tr
      else (.returned (), logError err.Error tr)
    match r with
    | (.returned _, tr1) => logExit f exitCode tr1
    | other => other
  | _ =>
    match logFatal f err.Error tr with
    | (.returned _, tr1) => logExit f Fail tr1
    | other => other

/-- The loop of Workflow.run over the steps that remain, `i` being the index of
the next step. -/
def runFrom {σ : Type} (f : ExitFunc) :
    List (step σ) → Nat → Machine σ → Trace → Ctl (Option GoError) × Machine σ × Trace
  | [], _, m, tr => (.returned none, m, tr)
  | s :: rest, i, m, tr =>
    match s m with
    | (.returned none, m1) => runFrom f rest (i + 1) m1 (tr ++ [.stepCalled i])
    | (.returned (some err), m1) =>
      match handleError f err (tr ++ [.stepCalled i]) with
      | (.returned _, tr1) => (.returned (some err), m1, tr1)
      | (.exited code, tr1) => (.exited code, m1, tr1)
      | (.panicked msg, tr1) => (.panicked msg, m1, tr1)
    | (.exited code, m1) => (.exited code, m1, tr ++ [.stepCalled i])
    | (.panicked msg, m1) => (.panicked msg, m1, tr ++ [.stepCalled i])

/-- Workflow.run (workflow.go 47-57). -/
def run {σ : Type} (f : ExitFunc) (Steps : List (step σ)) (m : Machine σ) :
    Ctl (Option GoError) × Machine σ × Trace :=
  runFrom f Steps 0 m []

/-- RunWorkflow (workflow.go 90-103): the counter starts at 0. -/
def RunWorkflow {σ : Type} (f : ExitFunc) (steps : List (step σ))
    (success : Machine σ → Ctl Unit × Machine σ) (m : Machine σ) :
    Ctl Unit × Machine σ × Trace :=
  match run f steps { m with RowCounter := 0 } with
  | (.returned (some _), m1, tr) => (.returned (), m1, tr)
  | (.returned none, m1, tr) =>
    let tr1 := if m1.RowCounter = 0 then logWarn "0 rows processed" tr else tr
    match success m1 with
    | (c, m2) => (c, m2, tr1 ++ [.successCalled])
  | (.exited code, m1, tr) => (.exited code, m1, tr)
  | (.panicked msg, m1, tr) => (.panicked msg, m1, tr)

/-! ## api.go: values -/

/-- Broken-down civil reading of a `time.Time` (years from 0 on), `offset` in
seconds east of UTC. -/
structure Time where
  year : Nat
  month : Nat
  day : Nat
  hour : Nat
  minute : Nat
  second : Nat
  offset : Int
  deriving Repr, DecidableEq

/-- Decimal text of `n`, left-padded with zeros to width `w`. -/
def zeroPad (w n : Nat) : String :=
  String.mk (List.replicate (w - (toString n).length) '0') ++ toString n

/-- The zone part of layout `Z07:00`: `Z` for offset 0, else sign, hours and
minutes of the offset truncated to minutes. -/
def zoneText (offset : Int) : String :=
  if offset = 0 then "Z"
  else
    let zone := Int.tdiv offset 60
    (if zone < 0 then "-" else "+") ++
      zeroPad 2 (zone.natAbs / 60) ++ ":" ++ zeroPad 2 (zone.natAbs % 60)

/-- The text `t.Format(time.RFC3339)`, layout `2006-01-02T15:04:05Z07:00`. -/
def Time.FormatRFC3339 (t : Time) : String :=
  zeroPad 4 t.year ++ "-" ++ zeroPad 2 t.month ++ "-" ++ zeroPad 2 t.day ++ "T" ++
    zeroPad 2 t.hour ++ ":" ++ zeroPad 2 t.minute ++ ":" ++ zeroPad 2 t.second ++
    zoneText t.offset

/-- Values of the Starlark runtime, as far as api.go tells them apart. -/
inductive StarlarkValue where
  | none
  | bool (b : Bool)
  | int (n : Int)
  | string (s : String)
  | list (elems : List StarlarkValue)
  | dict (items : List (StarlarkValue × StarlarkValue))
  | other (typeName : String)
  deriving Repr

/-- Dynamic Go values (`interface{}`), by dynamic type. Maps are association
lists in iteration order. -/
inductive Value where
  | nil
  | string (s : String)
  | bool (b : Bool)
  | int (n : Int)
  | int64 (n : Int)
  | Number (lit : String)
  | Time (t : Time)
  | bytes (b : String)
  | slice (elems : List Value)
  | mapString (items : List (String × Value))
  | mapIface (items : List (Value × Value))
  | table (rows : List (List String))
  | starlark (v : StarlarkValue)
  | other (typeName : String)
  deriving Repr

/-- The type `dataObject = map[string]interface{}`. -/
abbrev dataObject := List (String × Value)

/-- Indexing `object[key]`: the value stored, or nil when the key is absent. -/
def index (object : dataObject) (key : String) : Value :=
  match object with
  | [] => .nil
  | (k, v) :: rest => if k = key then v else index rest key

/-- The text `%T` prints for a value. -/
def Value.typeName : Value → String
  | .nil => "<nil>"
  | .string _ => "string"
  | .bool _ => "bool"
  | .int _ => "int"
  | .int64 _ => "int64"
  | .Number _ => "json.Number"
  | .Time _ => "time.Time"
  | .bytes _ => "[]uint8"
  | .slice _ => "[]interface \x7b\x7d"
  | .mapString _ => "map[string]interface \x7b\x7d"
  | .mapIface _ => "map[interface \x7b\x7d]interface \x7b\x7d"
  | .table _ => "main.table"
  | .starlark .none => "starlark.NoneType"
  | .starlark (.bool _) => "starlark.Bool"
  | .starlark (.int _) => "starlark.Int"
  | .starlark (.string _) => "starlark.String"
  | .starlark (.list _) => "*starlark.List"
  | .starlark (.dict _) => "*starlark.Dict"
  | .starlark (.other n) => n
  | .other n => n

/-- Outcome of a Go function with an `error` result: a value with a nil error,
a non-nil error, or a panic. -/
inductive Res (α : Type) where
  | ok (a : α)
  | error (e : GoError)
  | panic (msg : String)
  deriving Repr

/-- Error of a Starlark call: an `*starlark.EvalError` with its message and
backtrace, or any other error with its message. -/
inductive HookError where
  | EvalError (msg backtrace : String)
  | other (msg : String)
  deriving Repr

/-- A Starlark callable: its result may depend on how many times it has been
called before and on its argument. -/
abbrev Callable := Nat → StarlarkValue → Except HookError StarlarkValue

/-- The fields of `*http.Response` that api.go reads. -/
structure Response where
  Status : String
  StatusCode : Int
  Header : List (String × List String)
  Body : String
  deriving Repr

/-- What happens to one request inside getResponse. -/
inductive Transport where
  | newRequestError (msg : String)
  | doError (msg : String)
  | readError (msg : String)
  | ok (resp : Response)
  deriving Repr

/-- Modelled from the spec: the declaration of `Endpoint` is missing from the
sources; the fields are those api.go reads, typed as section 3 describes them. -/
structure Endpoint where
  URL : String
  Method : String
  Headers : List (String × String)
  BasicAuth : Option (List (String × String))
  ResponseType : String
  Functions : String → Option Callable
  ErrorHandling : Option (errorClass → Option ExitCode)
  TableDefinition : Option (List (String × String))

/-- Modelled from the spec: `schema.Column` is missing from the sources; name,
data type and option mapping as in section 3 and the tests. -/
structure Column where
  Name : String
  DataType : String
  Options : List (String × Int)
  deriving Repr, DecidableEq

/-- Modelled from the spec: `schema.Table` is missing from the sources; source,
name and ordered columns as in section 3 and the tests. -/
structure Table where
  Source : String
  Name : String
  Columns : List Column
  deriving Repr, DecidableEq

/-- Library calls and package variables api.go depends on. `roundTrip` is the
network: it sees the URLs requested before, then method, URL, headers and
basic-auth of the request. -/
structure Env where
  roundTrip : List String → String → String → List (String × String) →
    Option (List (String × String)) → Transport
  jsonDecode : String → Except String Value
  csvReadAll : String → Except String (List (List String))
  Marshal : Value → Except String StarlarkValue
  Unmarshal : StarlarkValue → Except String Value
  formatV : Value → String
  formatReader : String → String
  formatQ : StarlarkValue → String
  TempFile : String → Except String String
  writeError : Nat → Option String
  closeError : Option String
  readFileError : Option String
  Preview : Bool
  PreviewLimit : Int

/-- What the extraction has done so far: URLs requested (oldest first), calls
of each hook, bodies handed to unmarshalBody, pages handed to applyTransform. -/
structure Ghost where
  requests : List String
  paginateCalls : Nat
  transformCalls : Nat
  decodes : Nat
  transforms : Nat
  deriving Repr, DecidableEq

abbrev ApiState := Machine Ghost

/-- A call of getResponse with `url` is noted. -/
def noteRequest (url : String) (s : ApiState) : ApiState :=
  { s with heap := { s.heap with requests := s.heap.requests ++ [url] } }

/-- A call of the Paginate hook is noted. -/
def notePaginateCall (s : ApiState) : ApiState :=
  { s with heap := { s.heap with paginateCalls := s.heap.paginateCalls + 1 } }

/-- A call of the Transform hook is noted. -/
def noteTransformCall (s : ApiState) : ApiState :=
  { s with heap := { s.heap with transformCalls := s.heap.transformCalls + 1 } }

/-- A call of unmarshalBody is noted. -/
def noteDecode (s : ApiState) : ApiState :=
  { s with heap := { s.heap with decodes := s.heap.decodes + 1 } }

/-- A call of applyTransform is noted. -/
def noteTransform (s : ApiState) : ApiState :=
  { s with heap := { s.heap with transforms := s.heap.transforms + 1 } }

/-- Two's-complement wrap of an int64. -/
def wrapInt64 (x : Int) : Int :=
  (x + 2 ^ 63) % 2 ^ 64 - 2 ^ 63

/-- IncrementRowCounter (workflow.go 80-82). -/
def IncrementRowCounter (s : ApiState) : ApiState :=
  { s with RowCounter := wrapInt64 (s.RowCounter + 1) }

/-! ## api.go: operations -/

/-- The loops of determineImportColumns (api.go 143-151): over the destination
columns, appending a column when some header equals its name. -/
def collectImportColumns (headers : List String) :
    List Column → List Column → List Column
  | [], importColumns => importColumns
  | column :: rest, importColumns =>
    if headers.any (fun header => column.Name = header) then
      collectImportColumns headers rest (importColumns ++ [column])
    else collectImportColumns headers rest importColumns

/-- determineImportColumns (api.go 137-160); `ok` carries the value stored in
`*columns`. Indexing `results[0]` of an empty slice panics. -/
def determineImportColumns (destinationTable : Table) (results : List dataObject) :
    Res (List Column) :=
  match results with
  | [] => .panic "runtime error: index out of range [0] with length 0"
  | first :: _ =>
    let headers := first.map Prod.fst
    let importColumns := collectImportColumns headers destinationTable.Columns []
    if importColumns.length = 0 then
      .error (.plain "extracted results and destination table have no columns in common")
    else .ok importColumns

/-- handleAPIError (api.go 504-518), the apiError given by class and cause. -/
def handleAPIError (cls : errorClass) (err : GoError)
    (errorHandling : errorClass → Option ExitCode) : GoError :=
  match errorHandling cls with
  | none => WorkflowFail (.apiError cls err)
  | some value =>
    if value = Fail then WorkflowFail (.apiError cls err)
    else if value = Retry then WorkflowRetry (.apiError cls err)
    else WorkflowFail (.apiError cls err)

mutual
/-- convertJSONNumbers (api.go 536-581); no branch sets the error result. -/
def convertJSONNumbers : Value → Value
  | .Number lit => .string lit
  | .slice elems => .slice (convertElems elems)
  | .mapIface items => .mapIface (convertIfaceItems items)
  | .mapString items => .mapIface (convertStringItems items)
  | x => x
/-- The loop over a `[]interface{}`. -/
def convertElems : List Value → List Value
  | [] => []
  | val :: rest => convertJSONNumbers val :: convertElems rest
/-- The loop over a `map[interface{}]interface{}`. -/
def convertIfaceItems : List (Value × Value) → List (Value × Value)
  | [] => []
  | (key, val) :: rest => (key, convertJSONNumbers val) :: convertIfaceItems rest
/-- The loop over a `map[string]interface{}`: keys become interface keys. -/
def convertStringItems : List (String × Value) → List (Value × Value)
  | [] => []
  | (key, val) :: rest => (.string key, convertJSONNumbers val) :: convertStringItems rest
end

/-- applyJSONTransform (api.go 520-534). -/
def applyJSONTransform (env : Env) (raw : String) : Res Value :=
  match env.jsonDecode raw with
  | .error msg => .error (.plain ("json decode error: " ++ msg))
  | .ok output => .ok (convertJSONNumbers output)

/-- unmarshalBody (api.go 486-502). -/
def unmarshalBody (env : Env) (responseType : String) (raw : String) : Res Value :=
  if responseType = "json" then applyJSONTransform env raw
  else if responseType = "csv" then
    match env.csvReadAll raw with
    | .error msg => .error (.plain msg)
    | .ok records => .ok (.table records)
  else .error (.plain "unsupported response type. Allowed values: json")

/-- getResponse (api.go 245-285): every failure is a non-nil error. -/
def getResponse (env : Env) (sent : List String) (method url : String)
    (headers : List (String × String)) (basicAuth : Option (List (String × String))) :
    Except String Response :=
  match env.roundTrip sent method.toUpper url (("User-Agent", "Teleport") :: headers)
      basicAuth with
  | .newRequestError msg => .error msg
  | .doError msg => .error ("http error: " ++ msg)
  | .readError msg => .error ("body read error: " ++ msg)
  | .ok resp => .ok resp

/-- The copy loop `data[k.(string)] = v` (api.go 338-340, 346-348); a key that
is not a string makes the assertion panic. -/
def stringKeyed : List (Value × Value) → Option dataObject
  | [] => some []
  | (.string k, v) :: rest =>
    match stringKeyed rest with
    | some data => some ((k, v) :: data)
    | none => none
  | _ :: _ => none

/-- The loop over a native `[]interface{}` (api.go 336-343). -/
def nativeRecords : List Value → List dataObject → ApiState → Res (List dataObject) × ApiState
  | [], results, s => (.ok results, s)
  | .mapIface items :: rest, results, s =>
    match stringKeyed items with
    | some data => nativeRecords rest (results ++ [data]) (IncrementRowCounter s)
    | none => (.panic "interface conversion: interface \x7b\x7d is not string", s)
  | object :: _, _, s =>
    (.panic ("interface conversion: interface \x7b\x7d is " ++ object.typeName ++
      ", not map[interface \x7b\x7d]interface \x7b\x7d"), s)

/-- One Starlark object turned into a record (api.go 320-326, 329-334): the
counter is incremented before the assertion to dataObject is evaluated. -/
def starlarkRecord (env : Env) (slobject : StarlarkValue) (s : ApiState) :
    Res dataObject × ApiState :=
  match env.Unmarshal slobject with
  | .error msg => (.error (.plain ("read object error: " ++ msg)), s)
  | .ok (.mapString data) => (.ok data, IncrementRowCounter s)
  | .ok object =>
    (.panic ("interface conversion: interface \x7b\x7d is " ++ object.typeName ++
      ", not map[string]interface \x7b\x7d"), IncrementRowCounter s)

/-- The loop over a `*starlark.List` (api.go 316-327). -/
def starlarkRecords (env : Env) :
    List StarlarkValue → List dataObject → ApiState → Res (List dataObject) × ApiState
  | [], results, s => (.ok results, s)
  | slobject :: rest, results, s =>
    match starlarkRecord env slobject s with
    | (.ok data, s1) => starlarkRecords env rest (results ++ [data]) s1
    | (.error e, s1) => (.error e, s1)
    | (.panic msg, s1) => (.panic msg, s1)

/-- The second switch of applyTransform (api.go 314-355). -/
def collectRecords (env : Env) (value : Value) (s : ApiState) :
    Res (List dataObject) × ApiState :=
  match value with
  | .starlark (.list elems) => starlarkRecords env elems [] s
  | .starlark (.dict items) =>
    match starlarkRecord env (.dict items) s with
    | (.ok data, s1) => (.ok [data], s1)
    | (.error e, s1) => (.error e, s1)
    | (.panic msg, s1) => (.panic msg, s1)
  | .slice elems => nativeRecords elems [] s
  | .mapIface items =>
    match stringKeyed items with
    | some data => (.ok [data], IncrementRowCounter s)
    | none => (.panic "interface conversion: interface \x7b\x7d is not string", s)
  | other => (.error (.plain ("unsupported parser return type: " ++ other.typeName)), s)

/-- applyTransform (api.go 287-356). -/
def applyTransform (env : Env) (value : Value) (endpoint : Endpoint) (s : ApiState) :
    Res (List dataObject) × ApiState :=
  match endpoint.Functions "Transform" with
  | none => collectRecords env value s
  | some transform =>
    let marshalled : Except String StarlarkValue :=
      match value with
      | .starlark v => .ok v
      | native => env.Marshal native
    match marshalled with
    | .error msg => (.error (.plain ("starlib marshall error: " ++ msg)), s)
    | .ok arg =>
      let s1 : ApiState := noteTransformCall s
      match transform s.heap.transformCalls arg with
      | .error (.EvalError _ backtrace) =>
        (.error (.plain ("Transform() error: " ++ backtrace)), s1)
      | .error (.other msg) => (.error (.plain ("Transform() error: " ++ msg)), s1)
      | .ok .none =>
        (.error (.plain ("Transform() error: no return statement or None returned. " ++
          "To return no results, use `return []`")), s1)
      | .ok result => collectRecords env (.starlark result) s1

/-- The header loop `headers[k] = v[0]` (api.go 367-369); a header without
values makes the index panic. -/
def firstHeaderValues : List (String × List String) → Option (List (String × Value))
  | [] => some []
  | (_, []) :: _ => none
  | (k, v0 :: _) :: rest =>
    match firstHeaderValues rest with
    | some headers => some ((k, .string v0) :: headers)
    | none => none

/-- The argument tuple of the Paginate call (api.go 364-381). -/
def paginateArgs (env : Env) (response : Option Response) (body : Value) :
    Res StarlarkValue :=
  match response with
  | none => .ok .none
  | some resp =>
    match firstHeaderValues resp.Header with
    | none => .panic "runtime error: index out of range [0] with length 0"
    | some headers =>
      match env.Marshal (.mapString [("body", body), ("headers", .mapString headers)]) with
      | .error msg => .error (.plain ("starlib marshall error: " ++ msg))
      | .ok marshalled => .ok marshalled

/-- updatePagination (api.go 358-404); `ok (pagination, stop)` is a nil error. -/
def updatePagination (env : Env) (response : Option Response) (body : Value)
    (endpoint : Endpoint) (s : ApiState) : Res (List (String × String) × Bool) × ApiState :=
  match endpoint.Functions "Paginate" with
  | none => (.ok ([], true), s)
  | some paginate =>
    match paginateArgs env response body with
    | .panic msg => (.panic msg, s)
    | .error e => (.error e, s)
    | .ok args =>
      let s1 : ApiState := notePaginateCall s
      match paginate s.heap.paginateCalls args with
      | .error (.EvalError msg _) => (.error (.plain ("Paginate() error: " ++ msg)), s1)
      | .error (.other msg) => (.error (.plain ("Paginate() error: " ++ msg)), s1)
      | .ok (.dict items) =>
        match env.Unmarshal (.dict items) with
        | .error msg => (.error (.plain ("Paginate() result object error: " ++ msg)), s1)
        | .ok (.mapString unmarshalled) =>
          (.ok (unmarshalled.map (fun kv => (kv.1, env.formatV kv.2)), false), s1)
        | .ok other =>
          (.panic ("interface conversion: interface \x7b\x7d is " ++ other.typeName ++
            ", not map[string]interface \x7b\x7d"), s1)
      | .ok .none => (.ok ([], true), s1)
      | .ok result =>
        (.error (.plain ("Paginate() returned unsupported value: " ++ env.formatQ result)), s1)

/-- Whether the characters `s` begin with the characters `old`. -/
def startsWith : List Char → List Char → Bool
  | [], _ => true
  | _ :: _, [] => false
  | o :: os, c :: cs => o = c && startsWith os cs

/-- Left-to-right replacement of the non-overlapping occurrences of `old`;
`skip` counts the characters of a matched occurrence still to drop. -/
def replaceFrom (old new : List Char) : Nat → List Char → List Char
  | _, [] => []
  | skip + 1, _ :: cs => replaceFrom old new skip cs
  | 0, c :: cs =>
    if startsWith old (c :: cs) then new ++ replaceFrom old new (old.length - 1) cs
    else c :: replaceFrom old new 0 cs

/-- The call `strings.NewReplacer(old, new).Replace(s)` for a non-empty `old`. -/
def Replace (old new s : String) : String :=
  String.mk (replaceFrom old.data new.data 0 s.data)

/-- The substitution loop of requestAllPages (api.go 196-201): each token
`{k}` of the URL is replaced by its value, one pagination entry after another. -/
def substituteTokens (baseURL : String) (pagination : List (String × String)) : String :=
  pagination.foldl (fun currentURL kv => Replace ("\x7b" ++ kv.1 ++ "\x7d") kv.2 currentURL)
    baseURL

/-- The variables of requestAllPages that live across iterations. -/
structure LoopVars where
  resp : Option Response
  unmarshalledBody : Value
  itr : Nat
  results : List dataObject

/-- How one iteration of the loop of requestAllPages ends: the loop goes on,
breaks with the results, returns an error, or panics. -/
inductive Iter where
  | next (v : LoopVars)
  | done (results : List dataObject)
  | fail (e : GoError)
  | crash (msg : String)

/-- The preview block at the end of an iteration (api.go 231-237); slicing with
a negative bound panics. -/
def previewCut (env : Env) (results : List dataObject) : Iter :=
  if (results.length : Int) > env.PreviewLimit then
    if env.PreviewLimit < 0 then .crash "runtime error: slice bounds out of range"
    else .done (results.take env.PreviewLimit.toNat)
  else .done results

/-- The part of an iteration after a response arrived (api.go 210-237). -/
def handleResponse (env : Env) (endpoint : Endpoint) (v : LoopVars) (resp : Response)
    (s : ApiState) : Iter × ApiState :=
  if resp.StatusCode ≥ 500 then
    (.fail (.apiError Http5XXError
      (.plain (resp.Status ++ ": " ++ env.formatReader resp.Body))), s)
  else if resp.StatusCode ≥ 400 then
    (.fail (.apiError Http4XXError
      (.plain (resp.Status ++ ": " ++ env.formatReader resp.Body))), s)
  else
    let s1 : ApiState := noteDecode s
    match unmarshalBody env endpoint.ResponseType resp.Body with
    | .error e => (.fail (.apiError InvalidBodyError e), s1)
    | .panic msg => (.crash msg, s1)
    | .ok body =>
      let s2 : ApiState := noteTransform s1
      match applyTransform env body endpoint s2 with
      | (.error e, s3) => (.fail e, s3)
      | (.panic msg, s3) => (.crash msg, s3)
      | (.ok pageResults, s3) =>
        if env.Preview then (previewCut env (v.results ++ pageResults), s3)
        else
          (.next { resp := some resp, unmarshalledBody := body, itr := v.itr + 1,
                   results := v.results ++ pageResults }, s3)

/-- One iteration of the loop of requestAllPages (api.go 184-238). Each call of
getResponse is recorded in `requests` with its URL. -/
def pageIteration (env : Env) (endpoint : Endpoint) (v : LoopVars) (s : ApiState) :
    Iter × ApiState :=
  match updatePagination env v.resp v.unmarshalledBody endpoint s with
  | (.error e, s1) => (.fail e, s1)
  | (.panic msg, s1) => (.crash msg, s1)
  | (.ok (pagination, stop), s1) =>
    if stop = true ∧ v.itr ≠ 0 then (.done v.results, s1)
    else
      let currentURL := substituteTokens endpoint.URL pagination
      let s2 : ApiState := noteRequest currentURL s1
      match getResponse env s1.heap.requests endpoint.Method currentURL endpoint.Headers
          endpoint.BasicAuth with
      | .error msg =>
        (.fail (.apiError NetworkError (.plain ("http response error: " ++ msg))), s2)
      | .ok resp => handleResponse env endpoint v resp s2

/-- The loop of requestAllPages, at most `fuel` iterations; `none` when the
fuel runs out before the loop ends. -/
def requestLoop (env : Env) (endpoint : Endpoint) :
    Nat → LoopVars → ApiState → Option (Res (List dataObject) × ApiState)
  | 0, _, _ => none
  | fuel + 1, v, s =>
    match pageIteration env endpoint v s with
    | (.next v1, s1) => requestLoop env endpoint fuel v1 s1
    | (.done results, s1) => some (.ok results, s1)
    | (.fail e, s1) => some (.error e, s1)
    | (.crash msg, s1) => some (.panic msg, s1)

/-- requestAllPages (api.go 177-243); `ok` carries the value stored in
`*finalResults`. -/
def requestAllPages (env : Env) (endpoint : Endpoint) (fuel : Nat) (s : ApiState) :
    Option (Res (List dataObject) × ApiState) :=
  requestLoop env endpoint fuel
    { resp := none, unmarshalledBody := .nil, itr := 0, results := [] } s

/-- performAPIExtraction (api.go 162-175). -/
def performAPIExtraction (env : Env) (endpoint : Endpoint) (fuel : Nat) (s : ApiState) :
    Option (Res (List dataObject) × ApiState) :=
  match requestAllPages env endpoint fuel s with
  | none => none
  | some (.error (.apiError cls err), s1) =>
    match endpoint.ErrorHandling with
    | none => some (.error (.apiError cls err), s1)
    | some errorHandling => some (.error (handleAPIError cls err errorHandling), s1)
  | some other => some other

/-- The switch of saveResultsToCSV on one value (api.go 428-447); `none` is the
panic of the `[]byte` assertion in the default branch. -/
def serializeCell : Value → Option String
  | .string s => some s
  | .nil => some ""
  | .bool b => some (if b then "true" else "false")
  | .int n => some (toString n)
  | .int64 n => some (toString n)
  | .mapString _ => some ""
  | .slice _ => some ""
  | .Time t => some t.FormatRFC3339
  | .bytes b => some b
  | _ => none

/-- The inner loop of saveResultsToCSV (api.go 427-448): the write buffer for
one record, one field per header. -/
def fillBuffer (object : dataObject) : List String → Option (List String)
  | [] => some []
  | key :: rest =>
    match serializeCell (index object key), fillBuffer object rest with
    | some field, some fields => some (field :: fields)
    | _, _ => none

/-- The outer loop of saveResultsToCSV (api.go 426-453); `i` is the index of
the next record, `written` the rows written so far. -/
def writeRows (env : Env) (headers : List String) :
    List dataObject → Nat → List (List String) → Res (List (List String))
  | [], _, written => .ok written
  | object :: rest, i, written =>
    match fillBuffer object headers with
    | none => .panic "interface conversion: interface \x7b\x7d is not []uint8"
    | some writeBuffer =>
      match env.writeError i with
      | some msg => .error (.plain msg)
      | none => writeRows env headers rest (i + 1) (written ++ [writeBuffer])

/-- The header list of saveResultsToCSV (api.go 412-421); `none` is the panic
of `results[0]` on an empty slice. -/
def csvHeaders (results : List dataObject) (columns : Option (List Column)) :
    Option (List String) :=
  match columns with
  | none =>
    match results with
    | [] => none
    | first :: _ => some (first.map Prod.fst)
  | some cols => some (cols.map (fun column => column.Name))

/-- saveResultsToCSV (api.go 406-484); `ok` carries the rows of the artifact
and the path stored in `*csvfile`. -/
def saveResultsToCSV (env : Env) (endpointName : String) (results : List dataObject)
    (columns : Option (List Column)) : Res (List (List String) × String) :=
  match env.TempFile endpointName with
  | .error msg => .error (.plain msg)
  | .ok tmpfile =>
    match csvHeaders results columns with
    | none => .panic "runtime error: index out of range [0] with length 0"
    | some headers =>
      match writeRows env headers results 0 [] with
      | .panic msg => .panic msg
      | .error e => .error e
      | .ok rows =>
        match env.closeError with
        | some msg => .error (.plain msg)
        | none =>
          if env.Preview then
            match env.readFileError with
            | some msg => .error (.plain msg)
            | none => .ok (rows, tmpfile)
          else .ok (rows, tmpfile)

/-- Every step of the list returns nil when the steps run in order from `m`;
the result is the machine after the last one. -/
def stepsSucceed {σ : Type} : List (step σ) → Machine σ → Option (Machine σ)
  | [], m => some m
  | s :: rest, m =>
    match s m with
    | (.returned none, m1) => stepsSucceed rest m1
    | _ => none

/-- The step-call events for the steps `i, i+1, ..., i+n-1`. -/
def callsFrom (i n : Nat) : Trace :=
  (List.range n).map (fun j => Event.stepCalled (i + j))

/-- A step that succeeds and counts one row. -/
def tick : step Unit := fun m => (.returned none, { m with RowCounter := m.RowCounter + 1 })

/-- A step that fails with a plain error. -/
def boom : step Unit := fun m => (.returned (some (.plain "boom")), m)

/-- A network that answers every request with the given status and body. -/
def fixedEnv (status : Int) (body : Value) (preview : Bool) (limit : Int) : Env where
  roundTrip := fun _ _ _ _ _ =>
    .ok { Status := "status", StatusCode := status, Header := [("Link", ["next"])], Body := "raw" }
  jsonDecode := fun _ => .ok body
  csvReadAll := fun _ => .ok []
  Marshal := fun _ => .ok (.other "marshalled")
  Unmarshal := fun v =>
    match v with
    | .dict [(.string k, .string x)] => .ok (.mapString [(k, .string x)])
    | _ => .error "unsupported"
  formatV := fun v =>
    match v with
    | .string x => x
    | _ => "?"
  formatReader := fun raw => raw
  formatQ := fun _ => "?"
  TempFile := fun name => .ok ("/tmp/extract-api-" ++ name ++ ".csv")
  writeError := fun _ => none
  closeError := none
  readFileError := none
  Preview := preview
  PreviewLimit := limit

/-- An endpoint answering in the given format, with the given hooks and policy. -/
def fixedEndpoint (responseType : String) (functions : String → Option Callable)
    (errorHandling : Option (errorClass → Option ExitCode)) : Endpoint where
  URL := "http://api/items?page=\x7bpage\x7d"
  Method := "get"
  Headers := []
  BasicAuth := none
  ResponseType := responseType
  Functions := functions
  ErrorHandling := errorHandling
  TableDefinition := none

/-- The policy that maps the one class `cls` to Retry and has no other entry. -/
def retryOn (cls : errorClass) : errorClass → Option ExitCode :=
  fun c => if c = cls then some Retry else none

/-- The state at the start of a run: counter 0, nothing done yet. -/
def freshState : ApiState :=
  { RowCounter := 0,
    heap := { requests := [], paginateCalls := 0, transformCalls := 0, decodes := 0,
              transforms := 0 } }

/-- A column of type STRING without options. -/
def col (name : String) : Column :=
  { Name := name, DataType := "STRING", Options := [] }

/-- The hook table holding only a Paginate hook. -/
def onlyPaginate (hook : Callable) : String → Option Callable :=
  fun name => if name = "Paginate" then some hook else none

/-- A Paginate hook that returns the token mapping `page: 2` on every call. -/
def alwaysTokens : Callable := fun _ _ => .ok (.dict [(.string "page", .string "2")])

/-- A decoded JSON array of five objects `{"id": k}`. -/
def fiveObjects : Value :=
  .slice [.mapString [("id", .Number "1")], .mapString [("id", .Number "2")],
    .mapString [("id", .Number "3")], .mapString [("id", .Number "4")],
    .mapString [("id", .Number "5")]]

/-- A decoded JSON array with the one object `{"name": "a", "meta": {"k": 1}}`. -/
def nestedObject : Value :=
  .slice [.mapString [("name", .string "a"), ("meta", .mapString [("k", .Number "1")])]]

/-- A success callback that does nothing. -/
def quietSuccess : Machine Unit → Ctl Unit × Machine Unit := fun m => (.returned (), m)

/-- The argument the Transform hook is called with (api.go 289-296): a
Starlark value as it is, any other value marshalled. -/
def transformArg (env : Env) (value : Value) : Except String StarlarkValue :=
  match value with
  | .starlark v => .ok v
  | native => env.Marshal native

/-- The hook table holding only a Transform hook. -/
def onlyTransform (hook : Callable) : String → Option Callable :=
  fun name => if name = "Transform" then some hook else none

/-- A Transform hook that returns the empty list. -/
def returnsEmptyList : Callable := fun _ _ => .ok (.list [])

/-- A Transform hook that returns None. -/
def returnsNone : Callable := fun _ _ => .ok .none

/-- A record as the JSON path hands it to applyTransform: a
`map[interface{}]interface{}` whose keys are the strings of the record. -/
def asIface (object : dataObject) : Value :=
  .mapIface (object.map (fun kv => (Value.string kv.1, kv.2)))

/-- A decoded JSON object after convertJSONNumbers, as a record: the same keys
in the same order, each value converted. -/
def convertedObject (object : List (String × Value)) : dataObject :=
  object.map (fun kv => (kv.1, convertJSONNumbers kv.2))

/-- A decoded JSON array of three objects. -/
def threeObjects : List (List (String × Value)) :=
  [[("id", .Number "1"), ("name", .string "a")], [("id", .Number "2"), ("name", .string "b")],
   [("id", .Number "3"), ("name", .nil)]]

/-- The record `{active: true, count: null, seen_at: 2004-08-19T18:51:06Z}`. -/
def sampleRecord : dataObject :=
  [("seen_at", .Time ⟨2004, 8, 19, 18, 51, 6, 0⟩), ("count", .nil), ("active", .bool true)]

mutual
/-- convertJSONNumbers with its error result as written (api.go 536-581): the
loops return early, with a nil value, when a recursive call reports an error. -/
def convertJSONNumbersErr : Value → Value × Option GoError
  | .Number lit => (.string lit, none)
  | .slice elems =>
    match convertElemsErr elems with
    | (out, none) => (.slice out, none)
    | (_, some err) => (.nil, some err)
  | .mapIface items =>
    match convertIfaceItemsErr items with
    | (dict, none) => (.mapIface dict, none)
    | (_, some err) => (.nil, some err)
  | .mapString items =>
    match convertStringItemsErr items with
    | (dict, none) => (.mapIface dict, none)
    | (_, some err) => (.nil, some err)
  | x => (x, none)
/-- The loop over a `[]interface{}`, stopping at the first error. -/
def convertElemsErr : List Value → List Value × Option GoError
  | [] => ([], none)
  | val :: rest =>
    match convertJSONNumbersErr val with
    | (_, some err) => ([], some err)
    | (elem, none) =>
      match convertElemsErr rest with
      | (out, none) => (elem :: out, none)
      | (_, some err) => ([], some err)
/-- The loop over a `map[interface{}]interface{}`, stopping at the first error. -/
def convertIfaceItemsErr : List (Value × Value) → List (Value × Value) × Option GoError
  | [] => ([], none)
  | (key, val) :: rest =>
    match convertJSONNumbersErr val with
    | (_, some err) => ([], some err)
    | (elem, none) =>
      match convertIfaceItemsErr rest with
      | (dict, none) => ((key, elem) :: dict, none)
      | (_, some err) => ([], some err)
/-- The loop over a `map[string]interface{}`, stopping at the first error. -/
def convertStringItemsErr : List (String × Value) → List (Value × Value) × Option GoError
  | [] => ([], none)
  | (key, val) :: rest =>
    match convertJSONNumbersErr val with
    | (_, some err) => ([], some err)
    | (elem, none) =>
      match convertStringItemsErr rest with
      | (dict, none) => ((.string key, elem) :: dict, none)
      | (_, some err) => ([], some err)
end

mutual
/-- A tree as `Decode` with `UseNumber` produces it: null, booleans, strings,
numbers as json.Number, arrays as `[]interface{}`, objects as
`map[string]interface{}`. -/
def isDecodedJSON : Value → Bool
  | .nil => true
  | .bool _ => true
  | .string _ => true
  | .Number _ => true
  | .slice elems => allDecodedJSON elems
  | .mapString items => allValuesDecodedJSON items
  | _ => false
/-- Every element of the array is a decoded JSON tree. -/
def allDecodedJSON : List Value → Bool
  | [] => true
  | val :: rest => isDecodedJSON val && allDecodedJSON rest
/-- Every value of the object is a decoded JSON tree. -/
def allValuesDecodedJSON : List (String × Value) → Bool
  | [] => true
  | (_, val) :: rest => isDecodedJSON val && allValuesDecodedJSON rest
end

mutual
/-- The second tree has the shape of the first with numbers as text: a number
literal has become the string of its text; a string, boolean or null is the
same; a list has the same length with elements related in order; a mapping has
the same keys in the same order with values related. -/
def numbersAsText : Value → Value → Bool
  | .Number lit, .string x => lit = x
  | .string a, .string x => a = x
  | .bool a, .bool x => a = x
  | .nil, .nil => true
  | .slice elems, .slice out => elemsAsText elems out
  | .mapString items, .mapIface dict => itemsAsText items dict
  | _, _ => false
/-- Lists of the same length, related element by element. -/
def elemsAsText : List Value → List Value → Bool
  | [], [] => true
  | val :: rest, x :: out => numbersAsText val x && elemsAsText rest out
  | _, _ => false
/-- Mappings with the same keys in the same order, values related. -/
def itemsAsText : List (String × Value) → List (Value × Value) → Bool
  | [], [] => true
  | (key, val) :: rest, (.string k, x) :: dict =>
    (key = k) && numbersAsText val x && itemsAsText rest dict
  | _, _ => false
end

mutual
/-- The tree holds no number of any kind: it is built from null, booleans,
strings, lists and mappings only. -/
def numberFree : Value → Bool
  | .nil => true
  | .bool _ => true
  | .string _ => true
  | .slice elems => allNumberFree elems
  | .mapIface dict => allItemsNumberFree dict
  | _ => false
/-- No element of the list holds a number. -/
def allNumberFree : List Value → Bool
  | [] => true
  | val :: rest => numberFree val && allNumberFree rest
/-- No key and no value of the mapping holds a number. -/
def allItemsNumberFree : List (Value × Value) → Bool
  | [] => true
  | (key, val) :: rest => numberFree key && numberFree val && allItemsNumberFree rest
end

/-- A decoded JSON tree with numbers at several depths:
`{"a": 1.50, "b": [2, {"c": 3e2, "d": "x"}], "e": null, "f": true}`. -/
def deepTree : Value :=
  .mapString [("a", .Number "1.50"),
    ("b", .slice [.Number "2", .mapString [("c", .Number "3e2"), ("d", .string "x")]]),
    ("e", .nil), ("f", .bool true)]

/-- The loop variables and the state at the top of iteration `i` of the loop
of requestAllPages started in `s`, when every earlier iteration went on to the
next one; `none` when the loop ended before. -/
def loopStateAt (env : Env) (endpoint : Endpoint) (s : ApiState) :
    Nat → Option (LoopVars × ApiState)
  | 0 => some ({ resp := none, unmarshalledBody := .nil, itr := 0, results := [] }, s)
  | i + 1 =>
    match loopStateAt env endpoint s i with
    | none => none
    | some (v, st) =>
      match pageIteration env endpoint v st with
      | (.next v1, s1) => some (v1, s1)
      | _ => none

/-- The call of the Paginate hook made at the top of an iteration with loop
variables `v` in state `st` returns a concrete token mapping: the argument
built from the previous response is passed, and the hook answers it with a
dict that unmarshals to a string-keyed mapping. -/
def hookReturnsTokens (env : Env) (paginate : Callable) (v : LoopVars) (st : ApiState) : Prop :=
  ∃ args items m, paginateArgs env v.resp v.unmarshalledBody = .ok args ∧
    paginate st.heap.paginateCalls args = .ok (.dict items) ∧
    env.Unmarshal (.dict items) = .ok (.mapString m)

/-- The call of the Paginate hook made at the top of an iteration with loop
variables `v` in state `st` signals stop: the hook answers the argument built
from the previous response with None. -/
def hookSignalsStop (env : Env) (paginate : Callable) (v : LoopVars) (st : ApiState) : Prop :=
  ∃ args, paginateArgs env v.resp v.unmarshalledBody = .ok args ∧
    paginate st.heap.paginateCalls args = .ok .none

/-- The request, decode and transform of the iteration with loop variables `v`
in state `st` succeed: for the tokens updatePagination returns there,
getResponse returns a response with a status below 400, unmarshalBody decodes
its body and applyTransform returns records. -/
def pageSucceeds (env : Env) (endpoint : Endpoint) (v : LoopVars) (st : ApiState) : Prop :=
  ∀ pagination stop s1,
    updatePagination env v.resp v.unmarshalledBody endpoint st = (.ok (pagination, stop), s1) →
    ∃ resp body page s3,
      getResponse env s1.heap.requests endpoint.Method
        (substituteTokens endpoint.URL pagination) endpoint.Headers endpoint.BasicAuth
        = .ok resp ∧
      resp.StatusCode < 400 ∧
      unmarshalBody env endpoint.ResponseType resp.Body = .ok body ∧
      applyTransform env body endpoint (noteTransform (noteDecode
        (noteRequest (substituteTokens endpoint.URL pagination) s1))) = (.ok page, s3)

/-- A network whose first response carries the header `Link: next` and every
later one `Link: last`; the previous response is marshalled for the Paginate
hook as the string of that header. -/
def pagedEnv : Env :=
  { fixedEnv 200 (.slice []) false 0 with
    roundTrip := fun sent _ _ _ _ =>
      .ok { Status := "status", StatusCode := 200,
            Header := [("Link", [if sent.length = 0 then "next" else "last"])], Body := "raw" }
    Marshal := fun v =>
      match v with
      | .mapString [(_, _), (_, .mapString [(_, .string link)])] => .ok (.string link)
      | _ => .ok (.other "marshalled") }

/-- A Paginate hook that decides from its argument alone: tokens for the first
page when there is no previous response, tokens for the next page when the
previous response says `next`, None otherwise. -/
def linkHook : Callable := fun _ arg =>
  match arg with
  | .none => .ok (.dict [(.string "page", .string "1")])
  | .string "next" => .ok (.dict [(.string "page", .string "2")])
  | _ => .ok .none

/-- The endpoint paginated by `linkHook`. -/
def pagedEndpoint : Endpoint := fixedEndpoint "json" (onlyPaginate linkHook) none

/-- The disposition of an error as the engine treats it: the exit code of a
WorkflowError, Fail for any other error. -/
def disposition : GoError → ExitCode
  | .WorkflowError exitCode _ => exitCode
  | _ => Fail

/-! ## Theorems: workflow engine -/

theorem callsFrom_succ (i n : Nat) :
    callsFrom i (n + 1) = Event.stepCalled i :: callsFrom (i + 1) n := by
  simp only [callsFrom, List.range_succ_eq_map, List.map_cons, List.map_map, Nat.add_zero]
  congr 1
  apply List.map_congr_left
  intro j _
  simp only [Function.comp_apply]
  congr 1
  omega

theorem runFrom_append {σ : Type} (f : ExitFunc) (pre rest : List (step σ)) :
    ∀ (i : Nat) (m m1 : Machine σ) (tr : Trace), stepsSucceed pre m = some m1 →
      runFrom f (pre ++ rest) i m tr
        = runFrom f rest (i + pre.length) m1 (tr ++ callsFrom i pre.length) := by
  induction pre with
  | nil =>
    intro i m m1 tr h
    simp only [stepsSucceed, Option.some.injEq] at h
    subst h
    simp [callsFrom]
  | cons s pre ih =>
    intro i m m1 tr h
    simp only [stepsSucceed] at h
    simp only [List.cons_append, runFrom, List.length_cons]
    rcases hs : s m with ⟨c, m2⟩
    rw [hs] at h
    cases c with
    | returned a =>
      cases a with
      | none =>
        simp only at h ⊢
        change runFrom f (pre ++ rest) (i + 1) m2 _ = _
        rw [ih (i + 1) m2 m1 _ h, callsFrom_succ]
        simp [Nat.add_assoc, Nat.add_comm 1]
      | some e => simp at h
    | exited c => simp at h
    | panicked msg => simp at h

theorem handleError_overridden (err : GoError) (tr : Trace) :
    ∃ tail, handleError .overridden err tr = (.returned (), tr ++ tail) ∧
      ∀ i, Event.stepCalled i ∉ tail := by
  cases err with
  | plain msg =>
    exact ⟨[.logged .fatal msg, .exitRequested 1, .exitRequested Fail],
      by simp [handleError, logFatal, logExit, GoError.Error], by simp⟩
  | apiError cls e =>
    exact ⟨[.logged .fatal (GoError.apiError cls e).Error, .exitRequested 1,
      .exitRequested Fail], by simp [handleError, logFatal, logExit], by simp⟩
  | WorkflowError c e =>
    by_cases hc : c = Fail
    · exact ⟨[.logged .fatal e.Error, .exitRequested 1, .exitRequested c],
        by simp [handleError, logFatal, logExit, GoError.Error, hc], by simp⟩
    · exact ⟨[.logged .error e.Error, .exitRequested c],
        by simp [handleError, logError, logExit, GoError.Error, hc], by simp⟩

theorem callsFrom_succ_last (i n : Nat) :
    callsFrom i (n + 1) = callsFrom i n ++ [Event.stepCalled (i + n)] := by
  simp [callsFrom, List.range_succ]

/-- C1: Workflow.run calls the steps in list order. When the steps of `pre`
all return nil, running `pre` alone calls each of them once, in order, and
returns nil; and when the next step `s` then returns a non-nil error, running
`pre ++ s :: post` (exit function overridden) calls exactly the steps
`0 .. pre.length`, each once and in order, calls no step of `post`, leaves the
machine as `s` left it, and returns that error. -/
theorem run_calls_steps_until_first_error {σ : Type} (pre post : List (step σ))
    (m m1 : Machine σ) (h : stepsSucceed pre m = some m1) :
    run .overridden pre m = (.returned none, m1, callsFrom 0 pre.length) ∧
    ∀ (s : step σ) (m2 : Machine σ) (err : GoError), s m1 = (.returned (some err), m2) →
      ∃ tail, run .overridden (pre ++ s :: post) m
          = (.returned (some err), m2, callsFrom 0 (pre.length + 1) ++ tail) ∧
        ∀ i, Event.stepCalled i ∉ tail := by
  constructor
  · have h1 := runFrom_append .overridden pre [] 0 m m1 [] h
    simp only [List.append_nil, Nat.zero_add, List.nil_append] at h1
    simp only [run, h1, runFrom]
  · intro s m2 err hs
    have h1 := runFrom_append .overridden pre (s :: post) 0 m m1 [] h
    simp only [Nat.zero_add, List.nil_append] at h1
    obtain ⟨tail, ht, hn⟩ :=
      handleError_overridden err (callsFrom 0 pre.length ++ [Event.stepCalled pre.length])
    refine ⟨tail, ?_, hn⟩
    simp only [run, h1, runFrom, hs, ht, callsFrom_succ_last, Nat.zero_add]

theorem run_calls_steps_until_first_error_witness :
    stepsSucceed [tick] ⟨0, ()⟩ = some ⟨1, ()⟩ ∧
    ∃ tail, run .overridden ([tick] ++ boom :: [tick]) ⟨0, ()⟩
        = (.returned (some (.plain "boom")), ⟨1, ()⟩, callsFrom 0 ([tick].length + 1) ++ tail) ∧
      ∀ i, Event.stepCalled i ∉ tail :=
  ⟨rfl, (run_calls_steps_until_first_error [tick] [tick] ⟨0, ()⟩ ⟨1, ()⟩ rfl).2
    boom ⟨1, ()⟩ (.plain "boom") rfl⟩

/-- The exit code of the process when handleError runs with `os.Exit` as exit
function: the code of a WorkflowError other than Fail, and 1 (from the fatal
log call) for a WorkflowError carrying Fail and for every other error. -/
theorem handleError_osExit (err : GoError) (tr : Trace) :
    (handleError .osExit err tr).1 = .exited
      (match err with
       | .WorkflowError exitCode _ => if exitCode = Fail then 1 else exitCode
       | _ => 1) := by
  cases err with
  | plain msg => simp [handleError, logFatal, logExit]
  | apiError cls e => simp [handleError, logFatal, logExit]
  | WorkflowError c e =>
    by_cases hc : c = Fail <;> simp [handleError, logFatal, logError, logExit, hc]

/-- C2: for an error carrying Fail and for an error that is not a
WorkflowError, the first exit handleError requests has code 1, not 3: the
fatal log call exits before `Exit(3)` is reached. With `os.Exit` the process
ends with code 1; with the exit function overridden the requests are 1, then 3.
An error carrying Retry exits with 4. -/
theorem handleError_fail_exits_with_1 :
    (handleError .osExit (WorkflowFail (.plain "boom")) []).1 = .exited 1 ∧
    (handleError .osExit (.plain "boom") []).1 = .exited 1 ∧
    (handleError .overridden (WorkflowFail (.plain "boom")) []).2
      = [.logged .fatal "boom", .exitRequested 1, .exitRequested 3] ∧
    (handleError .overridden (.plain "boom") []).2
      = [.logged .fatal "boom", .exitRequested 1, .exitRequested 3] ∧
    (handleError .osExit (WorkflowRetry (.plain "boom")) []).1 = .exited 4 := by
  decide

/-! ## Theorems: errors of the extraction -/

theorem starlarkRecord_error (env : Env) (x : StarlarkValue) (s s1 : ApiState) (e : GoError)
    (h : starlarkRecord env x s = (.error e, s1)) : ∃ msg, e = .plain msg := by
  unfold starlarkRecord at h
  split at h <;> simp only [Prod.mk.injEq, Res.error.injEq, reduceCtorEq, false_and] at h
  exact ⟨_, h.1.symm⟩

theorem starlarkRecords_error (env : Env) (xs : List StarlarkValue) :
    ∀ (acc : List dataObject) (s s1 : ApiState) (e : GoError),
      starlarkRecords env xs acc s = (.error e, s1) → ∃ msg, e = .plain msg := by
  induction xs with
  | nil => intro acc s s1 e h; simp [starlarkRecords] at h
  | cons x xs ih =>
    intro acc s s1 e h
    simp only [starlarkRecords] at h
    split at h
    · exact ih _ _ _ _ h
    · rename_i e2 s2 hx
      simp only [Prod.mk.injEq, Res.error.injEq] at h
      obtain ⟨msg, hm⟩ := starlarkRecord_error env x s s2 e2 hx
      exact ⟨msg, by rw [← h.1, hm]⟩
    · simp at h

theorem nativeRecords_error (xs : List Value) :
    ∀ (acc : List dataObject) (s s1 : ApiState) (e : GoError),
      nativeRecords xs acc s ≠ (.error e, s1) := by
  induction xs with
  | nil => intro acc s s1 e h; simp [nativeRecords] at h
  | cons x xs ih =>
    intro acc s s1 e h
    cases x
    case mapIface items =>
      simp only [nativeRecords] at h
      split at h
      · exact ih _ _ _ _ h
      · simp at h
    all_goals simp [nativeRecords] at h

theorem collectRecords_error (env : Env) (value : Value) (s s1 : ApiState) (e : GoError)
    (h : collectRecords env value s = (.error e, s1)) : ∃ msg, e = .plain msg := by
  unfold collectRecords at h
  split at h
  · exact starlarkRecords_error env _ _ _ _ _ h
  · split at h
    · simp at h
    · rename_i e2 s2 hx
      simp only [Prod.mk.injEq, Res.error.injEq] at h
      obtain ⟨msg, hm⟩ := starlarkRecord_error env _ s s2 e2 hx
      exact ⟨msg, by rw [← h.1, hm]⟩
    · simp at h
  · exact absurd h (nativeRecords_error _ _ _ _ _)
  · split at h <;> simp at h
  · simp only [Prod.mk.injEq, Res.error.injEq] at h
    exact ⟨_, h.1.symm⟩

theorem applyTransform_error (env : Env) (value : Value) (endpoint : Endpoint)
    (s s1 : ApiState) (e : GoError)
    (h : applyTransform env value endpoint s = (.error e, s1)) : ∃ msg, e = .plain msg := by
  unfold applyTransform at h
  split at h
  · exact collectRecords_error env _ _ _ _ h
  · simp only at h
    split at h
    · simp only [Prod.mk.injEq, Res.error.injEq] at h
      exact ⟨_, h.1.symm⟩
    · split at h
      · simp only [Prod.mk.injEq, Res.error.injEq] at h
        exact ⟨_, h.1.symm⟩
      · simp only [Prod.mk.injEq, Res.error.injEq] at h
        exact ⟨_, h.1.symm⟩
      · simp only [Prod.mk.injEq, Res.error.injEq] at h
        exact ⟨_, h.1.symm⟩
      · exact collectRecords_error env _ _ _ _ h

theorem updatePagination_error (env : Env) (response : Option Response) (body : Value)
    (endpoint : Endpoint) (s s1 : ApiState) (e : GoError)
    (h : updatePagination env response body endpoint s = (.error e, s1)) :
    ∃ msg, e = .plain msg := by
  unfold updatePagination at h
  split at h
  · simp at h
  · split at h
    · simp at h
    · rename_i e2 hp
      simp only [Prod.mk.injEq, Res.error.injEq] at h
      unfold paginateArgs at hp
      split at hp
      · simp at hp
      · split at hp
        · simp at hp
        · split at hp
          · simp only [Res.error.injEq] at hp
            exact ⟨_, by rw [← h.1, ← hp]⟩
          · simp at hp
    · simp only at h
      split at h
      · simp only [Prod.mk.injEq, Res.error.injEq] at h
        exact ⟨_, h.1.symm⟩
      · simp only [Prod.mk.injEq, Res.error.injEq] at h
        exact ⟨_, h.1.symm⟩
      · split at h
        · simp only [Prod.mk.injEq, Res.error.injEq] at h
          exact ⟨_, h.1.symm⟩
        · simp at h
        · simp at h
      · simp at h
      · simp only [Prod.mk.injEq, Res.error.injEq] at h
        exact ⟨_, h.1.symm⟩

theorem previewCut_not_fail (env : Env) (results : List dataObject) (e : GoError) :
    previewCut env results ≠ .fail e := by
  unfold previewCut
  split
  · split <;> simp
  · simp

theorem handleResponse_fail (env : Env) (endpoint : Endpoint) (v : LoopVars)
    (resp : Response) (s s1 : ApiState) (e : GoError)
    (h : handleResponse env endpoint v resp s = (.fail e, s1)) :
    (∃ msg, e = .plain msg) ∨ ∃ cls cause, e = .apiError cls cause := by
  unfold handleResponse at h
  split at h
  · simp only [Prod.mk.injEq, Iter.fail.injEq] at h
    exact Or.inr ⟨_, _, h.1.symm⟩
  · split at h
    · simp only [Prod.mk.injEq, Iter.fail.injEq] at h
      exact Or.inr ⟨_, _, h.1.symm⟩
    · simp only at h
      split at h
      · simp only [Prod.mk.injEq, Iter.fail.injEq] at h
        exact Or.inr ⟨_, _, h.1.symm⟩
      · simp at h
      · split at h
        · rename_i e2 s3 ht
          simp only [Prod.mk.injEq, Iter.fail.injEq] at h
          obtain ⟨msg, hm⟩ := applyTransform_error env _ endpoint _ s3 e2 ht
          exact Or.inl ⟨msg, by rw [← h.1, hm]⟩
        · simp at h
        · split at h
          · simp only [Prod.mk.injEq] at h
            exact absurd h.1 (previewCut_not_fail env _ e)
          · simp at h

theorem pageIteration_fail (env : Env) (endpoint : Endpoint) (v : LoopVars)
    (s s1 : ApiState) (e : GoError)
    (h : pageIteration env endpoint v s = (.fail e, s1)) :
    (∃ msg, e = .plain msg) ∨ ∃ cls cause, e = .apiError cls cause := by
  unfold pageIteration at h
  split at h
  · rename_i e2 s2 hu
    simp only [Prod.mk.injEq, Iter.fail.injEq] at h
    obtain ⟨msg, hm⟩ := updatePagination_error env _ _ endpoint s s2 e2 hu
    exact Or.inl ⟨msg, by rw [← h.1, hm]⟩
  · simp at h
  · split at h
    · simp at h
    · simp only at h
      split at h
      · simp only [Prod.mk.injEq, Iter.fail.injEq] at h
        exact Or.inr ⟨_, _, h.1.symm⟩
      · exact handleResponse_fail env endpoint v _ _ s1 e h

theorem requestLoop_error (env : Env) (endpoint : Endpoint) :
    ∀ (fuel : Nat) (v : LoopVars) (s s1 : ApiState) (e : GoError),
      requestLoop env endpoint fuel v s = some (.error e, s1) →
      (∃ msg, e = .plain msg) ∨ ∃ cls cause, e = .apiError cls cause := by
  intro fuel
  induction fuel with
  | zero => intro v s s1 e h; simp [requestLoop] at h
  | succ fuel ih =>
    intro v s s1 e h
    simp only [requestLoop] at h
    split at h
    · exact ih _ _ _ _ h
    · simp at h
    · rename_i e2 s2 hp
      simp only [Option.some.injEq, Prod.mk.injEq, Res.error.injEq] at h
      rw [← h.1]
      exact pageIteration_fail env endpoint v s s2 e2 hp
    · simp at h

theorem performAPIExtraction_lemma (env : Env) (endpoint : Endpoint) (fuel : Nat)
    (s s1 : ApiState) (e : GoError)
    (h : requestAllPages env endpoint fuel s = some (.error e, s1)) :
    ∃ e1, performAPIExtraction env endpoint fuel s = some (.error e1, s1) ∧
      (disposition e1 = Retry ↔
        ∃ cls cause p, e = .apiError cls cause ∧ endpoint.ErrorHandling = some p ∧
          p cls = some Retry) ∧
      (disposition e1 ≠ Retry → disposition e1 = Fail) := by
  rcases requestLoop_error env endpoint fuel _ s s1 e h with ⟨msg, hm⟩ | ⟨cls, cause, hm⟩
  · subst hm
    refine ⟨.plain msg, ?_, ?_, ?_⟩
    · simp [performAPIExtraction, h]
    · simp [disposition, Fail, Retry]
    · simp [disposition]
  · subst hm
    cases hp : endpoint.ErrorHandling with
    | none =>
      refine ⟨.apiError cls cause, ?_, ?_, ?_⟩
      · simp [performAPIExtraction, h, hp]
      · simp [disposition, Fail, Retry]
      · simp [disposition]
    | some p =>
      refine ⟨handleAPIError cls cause p, ?_, ?_, ?_⟩
      · simp [performAPIExtraction, h, hp]
      · cases hv : p cls with
        | none => simp [handleAPIError, hv, disposition, WorkflowFail, Fail, Retry]
        | some value =>
          by_cases h3 : value = Fail
          · simp [handleAPIError, hv, disposition, WorkflowFail, h3, Fail, Retry]
          · by_cases h4 : value = Retry
            · simp [handleAPIError, hv, disposition, WorkflowRetry, h4, Fail, Retry]
            · simp [handleAPIError, hv, disposition, WorkflowFail, h3, h4]
              decide
      · cases hv : p cls with
        | none => simp [handleAPIError, hv, disposition, WorkflowFail]
        | some value =>
          by_cases h3 : value = Fail
          · simp [handleAPIError, hv, disposition, WorkflowFail, h3]
          · by_cases h4 : value = Retry
            · simp [handleAPIError, hv, disposition, WorkflowRetry, h4,
                show Retry ≠ Fail by decide]
            · simp [handleAPIError, hv, disposition, WorkflowFail, h3, h4]

/-- C3: whenever requestAllPages returns an error `e`, performAPIExtraction
returns an error whose disposition is Retry exactly when `e` is an apiError,
the endpoint has an error-handling policy, and the policy maps the class of `e`
to Retry; in every other case the disposition is Fail. -/
theorem performAPIExtraction_disposition (env : Env) (endpoint : Endpoint) (fuel : Nat)
    (s s1 : ApiState) (e : GoError)
    (h : requestAllPages env endpoint fuel s = some (.error e, s1)) :
    ∃ e1, performAPIExtraction env endpoint fuel s = some (.error e1, s1) ∧
      (disposition e1 = Retry ↔
        ∃ cls cause p, e = .apiError cls cause ∧ endpoint.ErrorHandling = some p ∧
          p cls = some Retry) ∧
      (disposition e1 ≠ Retry → disposition e1 = Fail) :=
  performAPIExtraction_lemma env endpoint fuel s s1 e h

theorem performAPIExtraction_disposition_witness :
    requestAllPages (fixedEnv 503 .nil false 0)
        (fixedEndpoint "json" (fun _ => none) (some (retryOn Http5XXError))) 1 freshState
      = some (.error (.apiError Http5XXError (.plain "status: raw")),
          noteRequest "http://api/items?page=\x7bpage\x7d" freshState) ∧
    ∃ e1, performAPIExtraction (fixedEnv 503 .nil false 0)
        (fixedEndpoint "json" (fun _ => none) (some (retryOn Http5XXError))) 1 freshState
          = some (.error e1, noteRequest "http://api/items?page=\x7bpage\x7d" freshState) ∧
      (disposition e1 = Retry ↔
        ∃ cls cause p, GoError.apiError Http5XXError (.plain "status: raw")
            = .apiError cls cause ∧
          (fixedEndpoint "json" (fun _ => none) (some (retryOn Http5XXError))).ErrorHandling
            = some p ∧ p cls = some Retry) ∧
      (disposition e1 ≠ Retry → disposition e1 = Fail) :=
  ⟨rfl, performAPIExtraction_disposition _ _ 1 freshState _ _ rfl⟩

/-- With the policy that maps only Http5XXError to Retry, a 503 response is
resolved to Retry and a 404 response to Fail. -/
theorem policy_5xx_retry_examples :
    performAPIExtraction (fixedEnv 503 .nil false 0)
        (fixedEndpoint "json" (fun _ => none) (some (retryOn Http5XXError))) 1 freshState
      = some (.error (WorkflowRetry (.apiError Http5XXError (.plain "status: raw"))),
          noteRequest "http://api/items?page=\x7bpage\x7d" freshState) ∧
    performAPIExtraction (fixedEnv 404 .nil false 0)
        (fixedEndpoint "json" (fun _ => none) (some (retryOn Http5XXError))) 1 freshState
      = some (.error (WorkflowFail (.apiError Http4XXError (.plain "status: raw"))),
          noteRequest "http://api/items?page=\x7bpage\x7d" freshState) :=
  ⟨rfl, rfl⟩

/-! ## Theorems: the extraction loop -/

theorem starlarkRecord_heap (env : Env) (x : StarlarkValue) (s s1 : ApiState)
    (r : Res dataObject) (h : starlarkRecord env x s = (r, s1)) : s1.heap = s.heap := by
  unfold starlarkRecord at h
  split at h <;> simp only [Prod.mk.injEq] at h <;> rw [← h.2] <;> rfl

theorem starlarkRecords_heap (env : Env) (xs : List StarlarkValue) :
    ∀ (acc : List dataObject) (s s1 : ApiState) (r : Res (List dataObject)),
      starlarkRecords env xs acc s = (r, s1) → s1.heap = s.heap := by
  induction xs with
  | nil =>
    intro acc s s1 r h
    simp only [starlarkRecords, Prod.mk.injEq] at h
    rw [← h.2]
  | cons x xs ih =>
    intro acc s s1 r h
    simp only [starlarkRecords] at h
    split at h
    · rename_i d s2 hx
      rw [ih _ _ _ _ h, starlarkRecord_heap env x s s2 _ hx]
    · rename_i e2 s2 hx
      simp only [Prod.mk.injEq] at h
      rw [← h.2, starlarkRecord_heap env x s s2 _ hx]
    · rename_i m2 s2 hx
      simp only [Prod.mk.injEq] at h
      rw [← h.2, starlarkRecord_heap env x s s2 _ hx]

theorem nativeRecords_heap (xs : List Value) :
    ∀ (acc : List dataObject) (s s1 : ApiState) (r : Res (List dataObject)),
      nativeRecords xs acc s = (r, s1) → s1.heap = s.heap := by
  induction xs with
  | nil =>
    intro acc s s1 r h
    simp only [nativeRecords, Prod.mk.injEq] at h
    rw [← h.2]
  | cons x xs ih =>
    intro acc s s1 r h
    cases x
    case mapIface items =>
      simp only [nativeRecords] at h
      split at h
      · rw [ih _ _ _ _ h]; rfl
      · simp only [Prod.mk.injEq] at h
        rw [← h.2]
    all_goals
      simp only [nativeRecords, Prod.mk.injEq] at h
      rw [← h.2]

theorem collectRecords_heap (env : Env) (value : Value) (s s1 : ApiState)
    (r : Res (List dataObject)) (h : collectRecords env value s = (r, s1)) :
    s1.heap = s.heap := by
  unfold collectRecords at h
  split at h
  · exact starlarkRecords_heap env _ _ _ _ _ h
  · split at h <;> rename_i hx <;> simp only [Prod.mk.injEq] at h <;>
      rw [← h.2, starlarkRecord_heap env _ s _ _ hx]
  · exact nativeRecords_heap _ _ _ _ _ h
  · split at h <;> simp only [Prod.mk.injEq] at h <;> (rw [← h.2]; try rfl)
  · simp only [Prod.mk.injEq] at h
    rw [← h.2]

theorem applyTransform_heap (env : Env) (value : Value) (endpoint : Endpoint)
    (s s1 : ApiState) (r : Res (List dataObject))
    (h : applyTransform env value endpoint s = (r, s1)) :
    s1.heap = s.heap ∨ s1.heap = (noteTransformCall s).heap := by
  unfold applyTransform at h
  split at h
  · exact Or.inl (collectRecords_heap env _ _ _ _ h)
  · simp only at h
    split at h
    · simp only [Prod.mk.injEq] at h
      exact Or.inl (by rw [← h.2])
    · split at h
      · simp only [Prod.mk.injEq] at h
        exact Or.inr (by rw [← h.2])
      · simp only [Prod.mk.injEq] at h
        exact Or.inr (by rw [← h.2])
      · simp only [Prod.mk.injEq] at h
        exact Or.inr (by rw [← h.2])
      · exact Or.inr (collectRecords_heap env _ _ _ _ h)

theorem applyTransform_ghost (env : Env) (value : Value) (endpoint : Endpoint)
    (s s1 : ApiState) (r : Res (List dataObject))
    (h : applyTransform env value endpoint s = (r, s1)) :
    s1.heap.requests = s.heap.requests ∧ s1.heap.paginateCalls = s.heap.paginateCalls ∧
      s1.heap.decodes = s.heap.decodes ∧ s1.heap.transforms = s.heap.transforms := by
  rcases applyTransform_heap env value endpoint s s1 r h with h1 | h1 <;>
    rw [h1] <;> simp [noteTransformCall]

theorem updatePagination_frame (env : Env) (response : Option Response) (body : Value)
    (endpoint : Endpoint) (s s1 : ApiState) (r : Res (List (String × String) × Bool))
    (h : updatePagination env response body endpoint s = (r, s1)) :
    s1 = s ∨ s1 = notePaginateCall s := by
  unfold updatePagination at h
  repeat' split at h
  all_goals simp only [Prod.mk.injEq] at h
  all_goals first | exact Or.inl h.2.symm | exact Or.inr h.2.symm

theorem updatePagination_ghost (env : Env) (response : Option Response) (body : Value)
    (endpoint : Endpoint) (s s1 : ApiState) (r : Res (List (String × String) × Bool))
    (h : updatePagination env response body endpoint s = (r, s1)) :
    s1.heap.requests = s.heap.requests ∧ s1.heap.decodes = s.heap.decodes ∧
      s1.heap.transforms = s.heap.transforms ∧
      s1.heap.transformCalls = s.heap.transformCalls ∧ s1.RowCounter = s.RowCounter := by
  rcases updatePagination_frame env response body endpoint s s1 r h with h1 | h1 <;>
    subst h1 <;> simp [notePaginateCall]

/-- C4: an iteration of the loop of requestAllPages that receives a response
with status `sc` ends the loop with an apiError of class Http5XXError when
`sc >= 500` and of class Http4XXError when `400 <= sc < 500`; in both cases
the body is not decoded, applyTransform and the Transform hook are not called,
the row counter is unchanged and the request just made is the last one. When
`sc < 400` the iteration does not end with an error of either class. -/
theorem status_check_classifies (env : Env) (endpoint : Endpoint) (v : LoopVars)
    (s s1 : ApiState) (pagination : List (String × String)) (stop : Bool) (resp : Response)
    (hu : updatePagination env v.resp v.unmarshalledBody endpoint s
      = (.ok (pagination, stop), s1))
    (hgo : ¬ (stop = true ∧ v.itr ≠ 0))
    (hr : getResponse env s1.heap.requests endpoint.Method
      (substituteTokens endpoint.URL pagination) endpoint.Headers endpoint.BasicAuth
      = .ok resp) :
    (resp.StatusCode ≥ 500 → ∀ fuel, ∃ cause st,
      requestLoop env endpoint (fuel + 1) v s
        = some (.error (.apiError Http5XXError cause), st) ∧
      st.heap.requests = s.heap.requests ++ [substituteTokens endpoint.URL pagination] ∧
      st.heap.decodes = s.heap.decodes ∧ st.heap.transforms = s.heap.transforms ∧
      st.heap.transformCalls = s.heap.transformCalls ∧ st.RowCounter = s.RowCounter) ∧
    (400 ≤ resp.StatusCode ∧ resp.StatusCode < 500 → ∀ fuel, ∃ cause st,
      requestLoop env endpoint (fuel + 1) v s
        = some (.error (.apiError Http4XXError cause), st) ∧
      st.heap.requests = s.heap.requests ++ [substituteTokens endpoint.URL pagination] ∧
      st.heap.decodes = s.heap.decodes ∧ st.heap.transforms = s.heap.transforms ∧
      st.heap.transformCalls = s.heap.transformCalls ∧ st.RowCounter = s.RowCounter) ∧
    (resp.StatusCode < 400 → ∀ cause st,
      pageIteration env endpoint v s ≠ (.fail (.apiError Http5XXError cause), st) ∧
      pageIteration env endpoint v s ≠ (.fail (.apiError Http4XXError cause), st)) := by
  obtain ⟨g1, g2, g3, g4, g5⟩ := updatePagination_ghost env _ _ endpoint s s1 _ hu
  have hit : pageIteration env endpoint v s
      = handleResponse env endpoint v resp
          (noteRequest (substituteTokens endpoint.URL pagination) s1) := by
    simp only [pageIteration, hu, hr, if_neg hgo]
  refine ⟨?_, ?_, ?_⟩
  · intro h5 fuel
    refine ⟨.plain (resp.Status ++ ": " ++ env.formatReader resp.Body),
      noteRequest (substituteTokens endpoint.URL pagination) s1, ?_, ?_⟩
    · simp only [requestLoop, hit, handleResponse, if_pos h5]
    · simp [noteRequest, g1, g2, g3, g4, g5]
  · intro h4 fuel
    have h5 : ¬ resp.StatusCode ≥ 500 := by omega
    refine ⟨.plain (resp.Status ++ ": " ++ env.formatReader resp.Body),
      noteRequest (substituteTokens endpoint.URL pagination) s1, ?_, ?_⟩
    · simp only [requestLoop, hit, handleResponse, if_neg h5, if_pos h4.1]
    · simp [noteRequest, g1, g2, g3, g4, g5]
  · intro hlt cause st
    have h5 : ¬ resp.StatusCode ≥ 500 := by omega
    have h4 : ¬ resp.StatusCode ≥ 400 := by omega
    have key : ∀ (cls : errorClass), cls ≠ InvalidBodyError →
        handleResponse env endpoint v resp
          (noteRequest (substituteTokens endpoint.URL pagination) s1)
          ≠ (.fail (.apiError cls cause), st) := by
      intro cls hcls hh
      simp only [handleResponse, if_neg h5, if_neg h4] at hh
      split at hh
      · simp only [Prod.mk.injEq, Iter.fail.injEq, GoError.apiError.injEq] at hh
        exact hcls hh.1.1.symm
      · simp at hh
      · split at hh
        · rename_i e2 s3 ht
          simp only [Prod.mk.injEq, Iter.fail.injEq] at hh
          obtain ⟨msg, hm⟩ := applyTransform_error env _ endpoint _ s3 e2 ht
          rw [hm] at hh
          simp at hh
        · simp at hh
        · split at hh
          · simp only [Prod.mk.injEq] at hh
            exact previewCut_not_fail env _ _ hh.1
          · simp at hh
    rw [hit]
    exact ⟨key Http5XXError (by decide), key Http4XXError (by decide)⟩

theorem status_check_classifies_witness :
    updatePagination (fixedEnv 503 .nil false 0) none .nil
        (fixedEndpoint "json" (fun _ => none) none) freshState
      = (.ok ([], true), freshState) ∧
    ∃ cause st,
      requestLoop (fixedEnv 503 .nil false 0) (fixedEndpoint "json" (fun _ => none) none)
          (0 + 1) ⟨none, .nil, 0, []⟩ freshState
        = some (.error (.apiError Http5XXError cause), st) ∧
      st.heap.requests = freshState.heap.requests ++
        [substituteTokens (fixedEndpoint "json" (fun _ => none) none).URL []] ∧
      st.heap.decodes = freshState.heap.decodes ∧
      st.heap.transforms = freshState.heap.transforms ∧
      st.heap.transformCalls = freshState.heap.transformCalls ∧
      st.RowCounter = freshState.RowCounter :=
  ⟨rfl, (status_check_classifies (fixedEnv 503 .nil false 0)
    (fixedEndpoint "json" (fun _ => none) none) ⟨none, .nil, 0, []⟩ freshState freshState
    [] true ⟨"status", 503, [("Link", ["next"])], "raw"⟩ rfl (by decide) rfl).1
    (by decide) 0⟩

theorem pageIteration_continues (env : Env) (endpoint : Endpoint) (paginate : Callable)
    (v : LoopVars) (st : ApiState) (hprev : env.Preview = false)
    (hhook : endpoint.Functions "Paginate" = some paginate)
    (hpage : pageSucceeds env endpoint v st)
    (hcall : hookReturnsTokens env paginate v st ∨
      (hookSignalsStop env paginate v st ∧ v.itr = 0)) :
    ∃ v1 s1, pageIteration env endpoint v st = (.next v1, s1) ∧ v1.itr = v.itr + 1 ∧
      s1.heap.requests.length = st.heap.requests.length + 1 ∧
      s1.heap.paginateCalls = st.heap.paginateCalls + 1 := by
  have hu : ∃ pagination stop,
      updatePagination env v.resp v.unmarshalledBody endpoint st
        = (.ok (pagination, stop), notePaginateCall st) ∧ ¬ (stop = true ∧ v.itr ≠ 0) := by
    rcases hcall with ⟨args, items, m, ha, h1, h2⟩ | ⟨⟨args, ha, h1⟩, hitr⟩
    · exact ⟨m.map (fun kv => (kv.1, env.formatV kv.2)), false,
        by simp only [updatePagination, hhook, ha, h1, h2], by simp⟩
    · exact ⟨[], true, by simp only [updatePagination, hhook, ha, h1], by simp [hitr]⟩
  obtain ⟨pagination, stop, hu, hgo⟩ := hu
  obtain ⟨resp, body, page, s3, hget, hsc, hdec, hap⟩ := hpage pagination stop _ hu
  have h5 : ¬ resp.StatusCode ≥ 500 := by omega
  have h4 : ¬ resp.StatusCode ≥ 400 := by omega
  obtain ⟨g1, g2, _, _⟩ := applyTransform_ghost env _ endpoint _ s3 _ hap
  refine ⟨⟨some resp, body, v.itr + 1, v.results ++ page⟩, s3, ?_, rfl, ?_, ?_⟩
  · simp [pageIteration, hu, if_neg hgo, hget, handleResponse, if_neg h5, if_neg h4, hdec,
      hap, hprev]
  · rw [g1]
    simp [noteTransform, noteDecode, noteRequest, notePaginateCall]
  · rw [g2]
    rfl

theorem pageIteration_stops (env : Env) (endpoint : Endpoint) (paginate : Callable)
    (v : LoopVars) (st : ApiState) (hhook : endpoint.Functions "Paginate" = some paginate)
    (hstop : hookSignalsStop env paginate v st) (hitr : v.itr ≠ 0) :
    pageIteration env endpoint v st = (.done v.results, notePaginateCall st) := by
  obtain ⟨args, ha, h1⟩ := hstop
  have hu : updatePagination env v.resp v.unmarshalledBody endpoint st
      = (.ok ([], true), notePaginateCall st) := by
    simp only [updatePagination, hhook, ha, h1]
  simp [pageIteration, hu, hitr]

theorem requestLoop_from_loopStateAt (env : Env) (endpoint : Endpoint) (s : ApiState) :
    ∀ (k fuel : Nat) (v : LoopVars) (st : ApiState),
      loopStateAt env endpoint s k = some (v, st) →
      requestLoop env endpoint (k + fuel) ⟨none, .nil, 0, []⟩ s
        = requestLoop env endpoint fuel v st := by
  intro k
  induction k with
  | zero =>
    intro fuel v st h
    simp only [loopStateAt, Option.some.injEq, Prod.mk.injEq] at h
    rw [← h.1, ← h.2, Nat.zero_add]
  | succ k ih =>
    intro fuel v st h
    simp only [loopStateAt] at h
    cases hk : loopStateAt env endpoint s k with
    | none => rw [hk] at h; simp at h
    | some p =>
      obtain ⟨v0, st0⟩ := p
      rw [hk] at h
      simp only at h
      rcases hit : pageIteration env endpoint v0 st0 with ⟨it, s1⟩
      rw [hit] at h
      cases it with
      | next v1 =>
        simp only [Option.some.injEq, Prod.mk.injEq] at h
        rw [show k + 1 + fuel = k + (fuel + 1) by omega, ih (fuel + 1) v0 st0 hk]
        simp only [requestLoop, hit, h.1, h.2]
      | done r => simp at h
      | fail e => simp at h
      | crash msg => simp at h

theorem loopStateAt_reaches (env : Env) (endpoint : Endpoint) (paginate : Callable)
    (s : ApiState) (n : Nat) (hprev : env.Preview = false)
    (hhook : endpoint.Functions "Paginate" = some paginate)
    (hinit : hookReturnsTokens env paginate ⟨none, .nil, 0, []⟩ s ∨
      hookSignalsStop env paginate ⟨none, .nil, 0, []⟩ s)
    (hpages : ∀ i, i ≤ n → ∀ v st, loopStateAt env endpoint s i = some (v, st) →
      pageSucceeds env endpoint v st)
    (htokens : ∀ i, 1 ≤ i → i ≤ n → ∀ v st, loopStateAt env endpoint s i = some (v, st) →
      hookReturnsTokens env paginate v st) :
    ∀ i, i ≤ n + 1 → ∃ v st, loopStateAt env endpoint s i = some (v, st) ∧ v.itr = i ∧
      st.heap.requests.length = s.heap.requests.length + i ∧
      st.heap.paginateCalls = s.heap.paginateCalls + i := by
  intro i
  induction i with
  | zero => intro _; exact ⟨_, _, rfl, rfl, rfl, rfl⟩
  | succ i ih =>
    intro hi
    obtain ⟨v, st, hl, hitr, hreq, hpc⟩ := ih (by omega)
    have hcall : hookReturnsTokens env paginate v st ∨
        (hookSignalsStop env paginate v st ∧ v.itr = 0) := by
      rcases Nat.eq_zero_or_pos i with h0 | hpos
      · subst h0
        simp only [loopStateAt, Option.some.injEq, Prod.mk.injEq] at hl
        rw [← hl.1, ← hl.2]
        rcases hinit with ht | hs
        · exact Or.inl ht
        · exact Or.inr ⟨hs, rfl⟩
      · exact Or.inl (htokens i hpos (by omega) v st hl)
    obtain ⟨v1, s1, hit, hitr1, hreq1, hpc1⟩ :=
      pageIteration_continues env endpoint paginate v st hprev hhook
        (hpages i (by omega) v st hl) hcall
    refine ⟨v1, s1, ?_, ?_, ?_, ?_⟩
    · simp only [loopStateAt, hl, hit]
    · rw [hitr1, hitr]
    · rw [hreq1, hreq]; omega
    · rw [hpc1, hpc]; omega

/-- C6: with preview mode off, a Paginate hook configured, and the request,
decode and transform of every iteration succeeding, for every n >= 0: if the
hook returns a concrete token mapping on its calls 1..n and signals stop on its
call n+1, the calls being those that receive a previous response (call i is
made before request i, on the response of request i-1), then requestAllPages
terminates after exactly n+1 HTTP requests. Before request 0 the code also
calls the hook once without a previous response; that call is taken to return a
token mapping or None, so the hook is called n+2 times in all. Each hypothesis
speaks of the argument the loop actually passes at that iteration. -/
theorem pagination_issues_n_plus_one_requests (env : Env) (endpoint : Endpoint)
    (paginate : Callable) (s : ApiState) (n extra : Nat) (hprev : env.Preview = false)
    (hhook : endpoint.Functions "Paginate" = some paginate)
    (hinit : hookReturnsTokens env paginate ⟨none, .nil, 0, []⟩ s ∨
      hookSignalsStop env paginate ⟨none, .nil, 0, []⟩ s)
    (hpages : ∀ i, i ≤ n → ∀ v st, loopStateAt env endpoint s i = some (v, st) →
      pageSucceeds env endpoint v st)
    (htokens : ∀ i, 1 ≤ i → i ≤ n → ∀ v st, loopStateAt env endpoint s i = some (v, st) →
      hookReturnsTokens env paginate v st)
    (hstop : ∀ v st, loopStateAt env endpoint s (n + 1) = some (v, st) →
      hookSignalsStop env paginate v st) :
    ∃ results st, requestAllPages env endpoint (n + 2 + extra) s = some (.ok results, st) ∧
      st.heap.requests.length = s.heap.requests.length + (n + 1) ∧
      st.heap.paginateCalls = s.heap.paginateCalls + (n + 2) := by
  obtain ⟨v, st, hl, hitr, hreq, hpc⟩ :=
    loopStateAt_reaches env endpoint paginate s n hprev hhook hinit hpages htokens (n + 1)
      (Nat.le_refl _)
  have hdone := pageIteration_stops env endpoint paginate v st hhook (hstop v st hl)
    (by rw [hitr]; exact Nat.succ_ne_zero n)
  refine ⟨v.results, notePaginateCall st, ?_, ?_, ?_⟩
  · rw [requestAllPages, show n + 2 + extra = (n + 1) + (extra + 1) by omega,
      requestLoop_from_loopStateAt env endpoint s (n + 1) (extra + 1) v st hl]
    simp only [requestLoop, hdone]
  · simpa [notePaginateCall] using hreq
  · simp only [notePaginateCall, hpc]
    omega

set_option maxRecDepth 8000 in
theorem pagination_issues_n_plus_one_requests_witness :
    ∃ results st, requestAllPages pagedEnv pagedEndpoint (1 + 2 + 0) freshState
        = some (.ok results, st) ∧
      st.heap.requests.length = freshState.heap.requests.length + (1 + 1) ∧
      st.heap.paginateCalls = freshState.heap.paginateCalls + (1 + 2) := by
  have e0 : loopStateAt pagedEnv pagedEndpoint freshState 0
      = some (⟨none, .nil, 0, []⟩, freshState) := rfl
  have e1 : loopStateAt pagedEnv pagedEndpoint freshState 1
      = some (⟨some ⟨"status", 200, [("Link", ["next"])], "raw"⟩, .slice [], 1, []⟩,
          ⟨0, ⟨["http://api/items?page=1"], 1, 0, 1, 1⟩⟩) := rfl
  have e2 : loopStateAt pagedEnv pagedEndpoint freshState 2
      = some (⟨some ⟨"status", 200, [("Link", ["last"])], "raw"⟩, .slice [], 2, []⟩,
          ⟨0, ⟨["http://api/items?page=1", "http://api/items?page=2"], 2, 0, 2, 2⟩⟩) := rfl
  refine pagination_issues_n_plus_one_requests pagedEnv pagedEndpoint linkHook freshState 1 0
    rfl rfl (Or.inl ⟨.none, _, _, rfl, rfl, rfl⟩) ?_ ?_ ?_
  · intro i hi v st h
    match i, hi, h with
    | 0, _, h =>
      rw [e0] at h
      cases h
      intro pagination stop s1 hu
      have eu : updatePagination pagedEnv none .nil pagedEndpoint freshState
          = (.ok ([("page", "1")], false), notePaginateCall freshState) := rfl
      rw [eu] at hu
      cases hu
      exact ⟨⟨"status", 200, [("Link", ["next"])], "raw"⟩, .slice [], [], _, rfl, by decide,
        rfl, rfl⟩
    | 1, _, h =>
      rw [e1] at h
      cases h
      intro pagination stop s1 hu
      have eu : updatePagination pagedEnv
          (some ⟨"status", 200, [("Link", ["next"])], "raw"⟩) (.slice []) pagedEndpoint
          ⟨0, ⟨["http://api/items?page=1"], 1, 0, 1, 1⟩⟩
          = (.ok ([("page", "2")], false),
              notePaginateCall ⟨0, ⟨["http://api/items?page=1"], 1, 0, 1, 1⟩⟩) := rfl
      rw [eu] at hu
      cases hu
      exact ⟨⟨"status", 200, [("Link", ["last"])], "raw"⟩, .slice [], [], _, rfl, by decide,
        rfl, rfl⟩
  · intro i h1 hi v st h
    obtain rfl : i = 1 := by omega
    rw [e1] at h
    cases h
    exact ⟨.string "next", _, _, rfl, rfl, rfl⟩
  · intro v st h
    rw [e2] at h
    cases h
    exact ⟨.string "last", rfl, rfl⟩

/-- The run of the witness: two requests, three calls of the hook (one before
request 0 without a previous response, one after each response). -/
theorem paged_example :
    requestAllPages pagedEnv pagedEndpoint 3 freshState
      = some (.ok [], ⟨0, ⟨["http://api/items?page=1", "http://api/items?page=2"], 3, 0, 2,
          2⟩⟩) := rfl

theorem previewCut_not_next (env : Env) (results : List dataObject) (v1 : LoopVars) :
    previewCut env results ≠ .next v1 := by
  unfold previewCut
  split
  · split <;> simp
  · simp

theorem handleResponse_ghost (env : Env) (endpoint : Endpoint) (v : LoopVars)
    (resp : Response) (s st : ApiState) (it : Iter)
    (h : handleResponse env endpoint v resp s = (it, st)) :
    st.heap.requests = s.heap.requests ∧ ∀ v1, it = .next v1 → v1.itr = v.itr + 1 := by
  unfold handleResponse at h
  split at h
  · simp only [Prod.mk.injEq] at h
    rw [← h.1, ← h.2]; simp
  · split at h
    · simp only [Prod.mk.injEq] at h
      rw [← h.1, ← h.2]; simp
    · simp only at h
      split at h
      · simp only [Prod.mk.injEq] at h
        rw [← h.1, ← h.2]; simp [noteDecode]
      · simp only [Prod.mk.injEq] at h
        rw [← h.1, ← h.2]; simp [noteDecode]
      · split at h
        · rename_i ht
          simp only [Prod.mk.injEq] at h
          rw [← h.1, ← h.2, (applyTransform_ghost env _ endpoint _ _ _ ht).1]
          simp [noteDecode, noteTransform]
        · rename_i ht
          simp only [Prod.mk.injEq] at h
          rw [← h.1, ← h.2, (applyTransform_ghost env _ endpoint _ _ _ ht).1]
          simp [noteDecode, noteTransform]
        · rename_i ht
          have hg := (applyTransform_ghost env _ endpoint _ _ _ ht).1
          split at h
          · simp only [Prod.mk.injEq] at h
            rw [← h.1, ← h.2, hg]
            refine ⟨by simp [noteDecode, noteTransform], ?_⟩
            intro v1 hv
            exact absurd hv (previewCut_not_next env _ v1)
          · simp only [Prod.mk.injEq] at h
            rw [← h.1, ← h.2, hg]
            refine ⟨by simp [noteDecode, noteTransform], ?_⟩
            intro v1 hv
            simp only [Iter.next.injEq] at hv
            rw [← hv]

/-- C7: for an endpoint without a Paginate hook, updatePagination returns the
empty token mapping with stop = true and no error, in every state and without
changing it; and requestAllPages, given fuel for two iterations or more,
terminates having called getResponse exactly once more, with the URL template
as it stands, whatever the outcome of that request. -/
theorem no_paginate_hook_single_request (env : Env) (endpoint : Endpoint)
    (hhook : endpoint.Functions "Paginate" = none) :
    (∀ response body s,
      updatePagination env response body endpoint s = (.ok ([], true), s)) ∧
    (∀ fuel s, ∃ r st, requestAllPages env endpoint (fuel + 2) s = some (r, st) ∧
      st.heap.requests = s.heap.requests ++ [endpoint.URL]) := by
  have hup : ∀ response body s,
      updatePagination env response body endpoint s = (.ok ([], true), s) := by
    intro response body s
    simp only [updatePagination, hhook]
  refine ⟨hup, ?_⟩
  intro fuel s
  have hit : pageIteration env endpoint ⟨none, .nil, 0, []⟩ s
      = match getResponse env s.heap.requests endpoint.Method endpoint.URL endpoint.Headers
          endpoint.BasicAuth with
        | .error msg =>
          (.fail (.apiError NetworkError (.plain ("http response error: " ++ msg))),
            noteRequest endpoint.URL s)
        | .ok resp =>
          handleResponse env endpoint ⟨none, .nil, 0, []⟩ resp (noteRequest endpoint.URL s) := by
    simp [pageIteration, hup, substituteTokens]
  cases hg : getResponse env s.heap.requests endpoint.Method endpoint.URL endpoint.Headers
      endpoint.BasicAuth with
  | error msg =>
    rw [hg] at hit
    simp only at hit
    exact ⟨.error (.apiError NetworkError (.plain ("http response error: " ++ msg))),
      noteRequest endpoint.URL s, by simp only [requestAllPages, requestLoop, hit], rfl⟩
  | ok resp =>
    rw [hg] at hit
    simp only at hit
    rcases hh : handleResponse env endpoint ⟨none, .nil, 0, []⟩ resp
      (noteRequest endpoint.URL s) with ⟨it, st⟩
    obtain ⟨hreq, hnext⟩ := handleResponse_ghost env endpoint _ resp _ st it hh
    rw [hh] at hit
    have hreq2 : st.heap.requests = s.heap.requests ++ [endpoint.URL] := by
      rw [hreq]; rfl
    cases it with
    | next v1 =>
      have hi : v1.itr ≠ 0 := by rw [hnext v1 rfl]; exact Nat.succ_ne_zero _
      refine ⟨.ok v1.results, st, ?_, hreq2⟩
      simp only [requestAllPages, requestLoop, hit]
      simp [pageIteration, hup, hi]
    | done results =>
      exact ⟨.ok results, st, by simp only [requestAllPages, requestLoop, hit], hreq2⟩
    | fail e =>
      exact ⟨.error e, st, by simp only [requestAllPages, requestLoop, hit], hreq2⟩
    | crash msg =>
      exact ⟨.panic msg, st, by simp only [requestAllPages, requestLoop, hit], hreq2⟩

theorem no_paginate_hook_single_request_witness :
    (fixedEndpoint "json" (fun _ => none) none).Functions "Paginate" = none ∧
    ∃ r st, requestAllPages (fixedEnv 200 fiveObjects false 0)
        (fixedEndpoint "json" (fun _ => none) none) (0 + 2) freshState = some (r, st) ∧
      st.heap.requests = freshState.heap.requests ++
        [(fixedEndpoint "json" (fun _ => none) none).URL] :=
  ⟨rfl, (no_paginate_hook_single_request (fixedEnv 200 fiveObjects false 0)
    (fixedEndpoint "json" (fun _ => none) none) rfl).2 0 freshState⟩

theorem previewCut_of_nonneg (env : Env) (results : List dataObject)
    (hL : 0 ≤ env.PreviewLimit) :
    previewCut env results = .done (results.take env.PreviewLimit.toNat) := by
  unfold previewCut
  split
  · rw [if_neg (by omega)]
  · rename_i hle
    rw [List.take_of_length_le (by omega)]

/-- C8: with preview mode on and a limit `L >= 0`, whatever the Paginate hook
returns before the first request: if that request succeeds with a status below
400, the body is decoded and applyTransform yields the records `page`, then
requestAllPages (any fuel of at least one iteration) returns the first
`min(page.length, L)` records of `page`, in order, after exactly one request. -/
theorem preview_one_request (env : Env) (endpoint : Endpoint) (s s1 st : ApiState)
    (pagination : List (String × String)) (stop : Bool) (resp : Response) (body : Value)
    (page : List dataObject) (hprev : env.Preview = true) (hL : 0 ≤ env.PreviewLimit)
    (hu : updatePagination env none .nil endpoint s = (.ok (pagination, stop), s1))
    (hr : getResponse env s1.heap.requests endpoint.Method
      (substituteTokens endpoint.URL pagination) endpoint.Headers endpoint.BasicAuth
      = .ok resp)
    (hsc : resp.StatusCode < 400)
    (hd : unmarshalBody env endpoint.ResponseType resp.Body = .ok body)
    (ht : applyTransform env body endpoint (noteTransform (noteDecode
      (noteRequest (substituteTokens endpoint.URL pagination) s1))) = (.ok page, st)) :
    ∀ fuel,
      requestAllPages env endpoint (fuel + 1) s
        = some (.ok (page.take env.PreviewLimit.toNat), st) ∧
      (page.take env.PreviewLimit.toNat).length = min page.length env.PreviewLimit.toNat ∧
      st.heap.requests = s.heap.requests ++ [substituteTokens endpoint.URL pagination] := by
  intro fuel
  have h5 : ¬ resp.StatusCode ≥ 500 := by omega
  have h4 : ¬ resp.StatusCode ≥ 400 := by omega
  obtain ⟨g1, _, _, _⟩ := applyTransform_ghost env _ endpoint _ st _ ht
  obtain ⟨u1, _, _, _, _⟩ := updatePagination_ghost env _ _ endpoint s s1 _ hu
  refine ⟨?_, ?_, ?_⟩
  · simp [requestAllPages, requestLoop, pageIteration, hu, hr, handleResponse, if_neg h5,
      if_neg h4, hd, ht, hprev, previewCut_of_nonneg env _ hL]
  · rw [List.length_take, Nat.min_comm]
  · rw [g1]
    simp [noteTransform, noteDecode, noteRequest, u1]

set_option maxRecDepth 8000 in
theorem preview_one_request_witness :
    requestAllPages (fixedEnv 200 fiveObjects true 2)
        (fixedEndpoint "json" (onlyPaginate alwaysTokens) none) (0 + 1) freshState
      = some (.ok (List.take (fixedEnv 200 fiveObjects true 2).PreviewLimit.toNat
          [[("id", .string "1")], [("id", .string "2")], [("id", .string "3")],
           [("id", .string "4")], [("id", .string "5")]]),
          ⟨5, ⟨["http://api/items?page=2"], 1, 0, 1, 1⟩⟩) ∧
    (List.take (fixedEnv 200 fiveObjects true 2).PreviewLimit.toNat
        [[("id", Value.string "1")], [("id", .string "2")], [("id", .string "3")],
         [("id", .string "4")], [("id", .string "5")]]).length
      = min [[("id", Value.string "1")], [("id", .string "2")], [("id", .string "3")],
         [("id", .string "4")], [("id", .string "5")]].length
         (fixedEnv 200 fiveObjects true 2).PreviewLimit.toNat ∧
    (⟨5, ⟨["http://api/items?page=2"], 1, 0, 1, 1⟩⟩ : ApiState).heap.requests
      = freshState.heap.requests ++
        [substituteTokens (fixedEndpoint "json" (onlyPaginate alwaysTokens) none).URL
          [("page", "2")]] :=
  preview_one_request (fixedEnv 200 fiveObjects true 2)
    (fixedEndpoint "json" (onlyPaginate alwaysTokens) none) freshState
    (notePaginateCall freshState) ⟨5, ⟨["http://api/items?page=2"], 1, 0, 1, 1⟩⟩
    [("page", "2")] false ⟨"status", 200, [("Link", ["next"])], "raw"⟩
    (convertJSONNumbers fiveObjects)
    [[("id", .string "1")], [("id", .string "2")], [("id", .string "3")],
     [("id", .string "4")], [("id", .string "5")]]
    rfl (by decide) rfl rfl (by decide) rfl rfl 0

/-- Preview limit 2 with five decoded records and a Paginate hook that always
returns tokens: the result has length 2 and one request was made. -/
theorem preview_example :
    (requestAllPages (fixedEnv 200 fiveObjects true 2)
        (fixedEndpoint "json" (onlyPaginate alwaysTokens) none) 1 freshState).map
      (fun out => (out.1, out.2.heap.requests.length))
      = some (.ok [[("id", .string "1")], [("id", .string "2")]], 1) := rfl

/-! ## Theorems: unsupported response type -/

/-- C9 (as stated, refuted): for the format tag "xml", a 200 response and the
policy that maps InvalidBodyError to Retry, requestAllPages surfaces the
"unsupported response type" failure as an apiError of class InvalidBodyError
and performAPIExtraction resolves it to Retry, not Fail. -/
theorem unsupported_type_resolved_to_retry :
    unmarshalBody (fixedEnv 200 .nil false 0) "xml" "raw"
      = .error (.plain "unsupported response type. Allowed values: json") ∧
    requestAllPages (fixedEnv 200 .nil false 0)
        (fixedEndpoint "xml" (fun _ => none) (some (retryOn InvalidBodyError))) 1 freshState
      = some (.error (.apiError InvalidBodyError
          (.plain "unsupported response type. Allowed values: json")),
          ⟨0, ⟨["http://api/items?page=\x7bpage\x7d"], 0, 0, 1, 0⟩⟩) ∧
    performAPIExtraction (fixedEnv 200 .nil false 0)
        (fixedEndpoint "xml" (fun _ => none) (some (retryOn InvalidBodyError))) 1 freshState
      = some (.error (WorkflowRetry (.apiError InvalidBodyError
          (.plain "unsupported response type. Allowed values: json"))),
          ⟨0, ⟨["http://api/items?page=\x7bpage\x7d"], 0, 0, 1, 0⟩⟩) ∧
    disposition (WorkflowRetry (.apiError InvalidBodyError
      (.plain "unsupported response type. Allowed values: json"))) ≠ Fail :=
  ⟨rfl, rfl, rfl, by decide⟩

/-- C9 (amended): for every response format tag other than "json" and "csv",
unmarshalBody fails with the "unsupported response type" error; an iteration of
requestAllPages that received a response with a status below 400 ends the loop
with that error wrapped in an apiError of class InvalidBodyError, without
calling applyTransform; and when requestAllPages returns that error, the
disposition of what performAPIExtraction returns is Retry exactly when the
endpoint has a policy that maps InvalidBodyError to Retry, and Fail otherwise. -/
theorem unsupported_type_is_InvalidBodyError (env : Env) (endpoint : Endpoint)
    (hjson : endpoint.ResponseType ≠ "json") (hcsv : endpoint.ResponseType ≠ "csv") :
    (∀ raw, unmarshalBody env endpoint.ResponseType raw
      = .error (.plain "unsupported response type. Allowed values: json")) ∧
    (∀ v resp s, resp.StatusCode < 400 →
      handleResponse env endpoint v resp s
        = (.fail (.apiError InvalidBodyError
            (.plain "unsupported response type. Allowed values: json")), noteDecode s)) ∧
    (∀ fuel s s1,
      requestAllPages env endpoint fuel s
        = some (.error (.apiError InvalidBodyError
            (.plain "unsupported response type. Allowed values: json")), s1) →
      ∃ e1, performAPIExtraction env endpoint fuel s = some (.error e1, s1) ∧
        (disposition e1 = Retry ↔
          ∃ p, endpoint.ErrorHandling = some p ∧ p InvalidBodyError = some Retry) ∧
        (disposition e1 ≠ Retry → disposition e1 = Fail)) := by
  have hun : ∀ raw, unmarshalBody env endpoint.ResponseType raw
      = .error (.plain "unsupported response type. Allowed values: json") := by
    intro raw
    simp only [unmarshalBody, if_neg hjson, if_neg hcsv]
  refine ⟨hun, ?_, ?_⟩
  · intro v resp s hsc
    have h5 : ¬ resp.StatusCode ≥ 500 := by omega
    have h4 : ¬ resp.StatusCode ≥ 400 := by omega
    simp only [handleResponse, if_neg h5, if_neg h4, hun]
  · intro fuel s s1 h
    obtain ⟨e1, he, hiff, hfail⟩ := performAPIExtraction_lemma env endpoint fuel s s1 _ h
    refine ⟨e1, he, ?_, hfail⟩
    rw [hiff]
    constructor
    · rintro ⟨cls, cause, p, heq, hp, hr⟩
      simp only [GoError.apiError.injEq] at heq
      exact ⟨p, hp, by rw [heq.1]; exact hr⟩
    · rintro ⟨p, hp, hr⟩
      exact ⟨_, _, p, rfl, hp, hr⟩

theorem unsupported_type_is_InvalidBodyError_witness :
    (fixedEndpoint "xml" (fun _ => none) (some (retryOn InvalidBodyError))).ResponseType
      ≠ "json" ∧
    (fixedEndpoint "xml" (fun _ => none) (some (retryOn InvalidBodyError))).ResponseType
      ≠ "csv" ∧
    ∀ raw, unmarshalBody (fixedEnv 200 .nil false 0)
        (fixedEndpoint "xml" (fun _ => none) (some (retryOn InvalidBodyError))).ResponseType raw
      = .error (.plain "unsupported response type. Allowed values: json") :=
  ⟨by decide, by decide,
    (unsupported_type_is_InvalidBodyError (fixedEnv 200 .nil false 0)
      (fixedEndpoint "xml" (fun _ => none) (some (retryOn InvalidBodyError)))
      (by decide) (by decide)).1⟩

/-! ## Theorems: cells of the staging file -/

/-- The cells saveResultsToCSV writes for the value kinds its switch names:
the string itself, the empty field for nil, for a `map[string]interface{}` and
for a `[]interface{}`, "true" or "false", base-10 text, RFC 3339 text. -/
theorem serializeCell_named_cases :
    (∀ x, serializeCell (.string x) = some x) ∧
    serializeCell .nil = some "" ∧
    serializeCell (.bool true) = some "true" ∧
    serializeCell (.bool false) = some "false" ∧
    (∀ n, serializeCell (.int n) = some (toString n)) ∧
    (∀ n, serializeCell (.int64 n) = some (toString n)) ∧
    (∀ t, serializeCell (.Time t) = some t.FormatRFC3339) ∧
    (∀ m, serializeCell (.mapString m) = some "") ∧
    (∀ xs, serializeCell (.slice xs) = some "") :=
  ⟨fun _ => rfl, rfl, rfl, rfl, fun _ => rfl, fun _ => rfl, fun _ => rfl, fun _ => rfl,
    fun _ => rfl⟩

/-- The record `{active: true, count: null, seen_at: T}` over the columns
active, count, seen_at gives the fields "true", "", RFC 3339 text of T. -/
theorem fillBuffer_example :
    fillBuffer [("active", .bool true), ("count", .nil),
        ("seen_at", .Time ⟨2004, 8, 19, 18, 51, 6, 0⟩)] ["active", "count", "seen_at"]
      = some ["true", "", "2004-08-19T18:51:06Z"] := by
  decide

/-- C10: a nested JSON object reaches saveResultsToCSV as a
`map[interface{}]interface{}` and makes it panic instead of writing the empty
field. For the body `[{"name": "a", "meta": {"k": 1}}]` and no Transform hook,
requestAllPages returns the record whose `meta` value is the converted nested
map; the switch has no case for it, the default branch asserts `[]byte`, and
saveResultsToCSV panics, with or without import columns. -/
theorem saveResultsToCSV_nested_json_object_panics :
    (requestAllPages (fixedEnv 200 nestedObject false 0)
        (fixedEndpoint "json" (fun _ => none) none) 2 freshState).map Prod.fst
      = some (.ok [[("name", .string "a"), ("meta", .mapIface [(.string "k", .string "1")])]]) ∧
    serializeCell (.mapIface [(.string "k", .string "1")]) = none ∧
    saveResultsToCSV (fixedEnv 200 nestedObject false 0) "items"
        [[("name", .string "a"), ("meta", .mapIface [(.string "k", .string "1")])]]
        (some [col "name", col "meta"])
      = .panic "interface conversion: interface \x7b\x7d is not []uint8" ∧
    saveResultsToCSV (fixedEnv 200 nestedObject false 0) "items"
        [[("name", .string "a"), ("meta", .mapIface [(.string "k", .string "1")])]] none
      = .panic "interface conversion: interface \x7b\x7d is not []uint8" :=
  ⟨rfl, rfl, rfl, rfl⟩

/-! ## Theorems: import columns -/

theorem collectImportColumns_eq (headers : List String) (cols : List Column) :
    ∀ acc, collectImportColumns headers cols acc
      = acc ++ cols.filter (fun c => decide (c.Name ∈ headers)) := by
  induction cols with
  | nil => intro acc; simp [collectImportColumns]
  | cons column cols ih =>
    intro acc
    by_cases hm : column.Name ∈ headers
    · have ha : (headers.any fun header => decide (column.Name = header)) = true := by
        simp only [List.any_eq_true, decide_eq_true_eq]
        exact ⟨_, hm, rfl⟩
      simp [collectImportColumns, ha, ih, hm]
    · have ha : ¬ (headers.any fun header => decide (column.Name = header)) = true := by
        simp only [List.any_eq_true, decide_eq_true_eq, not_exists, not_and]
        intro x hx hn
        exact hm (hn ▸ hx)
      simp [collectImportColumns, ha, ih, hm]

/-- C5: for every destination table and every non-empty list of records,
determineImportColumns succeeds with exactly the destination columns whose
name is a key of the first record, in destination order, whenever that
selection is non-empty; and it returns the error "no columns in common" if
and only if no destination column name is a key of the first record. -/
theorem determineImportColumns_selects (destinationTable : Table) (first : dataObject)
    (rest : List dataObject) :
    (destinationTable.Columns.filter (fun c => decide (c.Name ∈ first.map Prod.fst)) ≠ [] →
      determineImportColumns destinationTable (first :: rest)
        = .ok (destinationTable.Columns.filter
            (fun c => decide (c.Name ∈ first.map Prod.fst)))) ∧
    (determineImportColumns destinationTable (first :: rest)
        = .error (.plain "extracted results and destination table have no columns in common")
      ↔ ∀ c ∈ destinationTable.Columns, c.Name ∉ first.map Prod.fst) := by
  have hsel : collectImportColumns (first.map Prod.fst) destinationTable.Columns []
      = destinationTable.Columns.filter (fun c => decide (c.Name ∈ first.map Prod.fst)) := by
    rw [collectImportColumns_eq]; rfl
  constructor
  · intro hne
    simp only [determineImportColumns, hsel]
    rw [if_neg]
    rw [List.length_eq_zero]
    exact hne
  · simp only [determineImportColumns, hsel]
    by_cases h0 : (destinationTable.Columns.filter
        (fun c => decide (c.Name ∈ first.map Prod.fst))).length = 0
    · rw [if_pos h0]
      rw [List.length_eq_zero, List.filter_eq_nil_iff] at h0
      simp only [true_iff]
      intro c hc
      simpa using h0 c hc
    · rw [if_neg h0]
      simp only [reduceCtorEq, false_iff]
      intro hall
      apply h0
      rw [List.length_eq_zero, List.filter_eq_nil_iff]
      intro c hc
      simpa using hall c hc

theorem determineImportColumns_selects_witness :
    ([col "id", col "name", col "price"].filter
        (fun c => decide (c.Name ∈ [("id", Value.int 1), ("name", Value.string "a"),
          ("extra", Value.nil)].map Prod.fst)) ≠ []) ∧
    determineImportColumns ⟨"example", "widgets", [col "id", col "name", col "price"]⟩
        ([("id", Value.int 1), ("name", Value.string "a"), ("extra", Value.nil)] :: [])
      = .ok ([col "id", col "name", col "price"].filter
          (fun c => decide (c.Name ∈ [("id", Value.int 1), ("name", Value.string "a"),
            ("extra", Value.nil)].map Prod.fst))) :=
  ⟨by decide, (determineImportColumns_selects
    ⟨"example", "widgets", [col "id", col "name", col "price"]⟩
    [("id", Value.int 1), ("name", Value.string "a"), ("extra", Value.nil)] []).1
    (by decide)⟩

/-- Destination columns id, name, price with record keys id, name, extra give
the import columns id, name; destination column id with record key other fails. -/
theorem determineImportColumns_examples :
    determineImportColumns ⟨"example", "widgets", [col "id", col "name", col "price"]⟩
        [[("id", Value.int 1), ("name", Value.string "a"), ("extra", Value.nil)]]
      = .ok [col "id", col "name"] ∧
    determineImportColumns ⟨"example", "widgets", [col "id"]⟩ [[("other", Value.nil)]]
      = .error (.plain "extracted results and destination table have no columns in common") :=
  ⟨rfl, rfl⟩

/-! ## Theorems: RunWorkflow -/

theorem handleError_trace (f : ExitFunc) (err : GoError) (tr : Trace) :
    ∃ c tail, handleError f err tr = (c, tr ++ tail) ∧ Event.successCalled ∉ tail := by
  cases f with
  | osExit =>
    cases err with
    | plain msg =>
      exact ⟨.exited 1, [.logged .fatal msg, .exitRequested 1],
        by simp [handleError, logFatal, logExit, GoError.Error], by simp⟩
    | apiError cls e =>
      exact ⟨.exited 1, [.logged .fatal (GoError.apiError cls e).Error, .exitRequested 1],
        by simp [handleError, logFatal, logExit], by simp⟩
    | WorkflowError c e =>
      by_cases hc : c = Fail
      · exact ⟨.exited 1, [.logged .fatal e.Error, .exitRequested 1],
          by simp [handleError, logFatal, logExit, GoError.Error, hc], by simp⟩
      · exact ⟨.exited c, [.logged .error e.Error, .exitRequested c],
          by simp [handleError, logError, logExit, GoError.Error, hc], by simp⟩
  | overridden =>
    cases err with
    | plain msg =>
      exact ⟨.returned (), [.logged .fatal msg, .exitRequested 1, .exitRequested Fail],
        by simp [handleError, logFatal, logExit, GoError.Error], by simp⟩
    | apiError cls e =>
      exact ⟨.returned (), [.logged .fatal (GoError.apiError cls e).Error, .exitRequested 1,
        .exitRequested Fail], by simp [handleError, logFatal, logExit], by simp⟩
    | WorkflowError c e =>
      by_cases hc : c = Fail
      · exact ⟨.returned (), [.logged .fatal e.Error, .exitRequested 1, .exitRequested c],
          by simp [handleError, logFatal, logExit, GoError.Error, hc], by simp⟩
      · exact ⟨.returned (), [.logged .error e.Error, .exitRequested c],
          by simp [handleError, logError, logExit, GoError.Error, hc], by simp⟩

theorem successCalled_not_mem_callsFrom (i n : Nat) :
    Event.successCalled ∉ callsFrom i n := by
  simp [callsFrom]

theorem count_successCalled_callsFrom (i n : Nat) :
    (callsFrom i n).count Event.successCalled = 0 :=
  List.count_eq_zero.mpr (successCalled_not_mem_callsFrom i n)

/-- C15: when every step of the list returns nil, RunWorkflow calls onSuccess
exactly once, after all steps; the warning "0 rows processed" is logged right
before that call exactly when the row counter is zero at that point, and the
call happens in either case. When a step returns an error after the steps
before it succeeded, onSuccess is not called, whether the exit function ends
the process or returns. -/
theorem RunWorkflow_calls_success_once {σ : Type} (f : ExitFunc) (pre post : List (step σ))
    (success : Machine σ → Ctl Unit × Machine σ) (m m1 : Machine σ)
    (h : stepsSucceed pre { m with RowCounter := 0 } = some m1) :
    (RunWorkflow f pre success m
        = ((success m1).1, (success m1).2,
            callsFrom 0 pre.length ++
              (if m1.RowCounter = 0 then [Event.logged .warn "0 rows processed"] else []) ++
              [Event.successCalled]) ∧
      (callsFrom 0 pre.length ++
          (if m1.RowCounter = 0 then [Event.logged .warn "0 rows processed"] else []) ++
          [Event.successCalled]).count Event.successCalled = 1) ∧
    ∀ (s : step σ) (m2 : Machine σ) (err : GoError), s m1 = (.returned (some err), m2) →
      ∃ c tr, RunWorkflow f (pre ++ s :: post) success m = (c, m2, tr) ∧
        Event.successCalled ∉ tr := by
  refine ⟨⟨?_, ?_⟩, ?_⟩
  · have h1 := runFrom_append f pre [] 0 { m with RowCounter := 0 } m1 [] h
    simp only [List.append_nil, Nat.zero_add, List.nil_append, runFrom] at h1
    simp only [RunWorkflow, run, h1]
    by_cases h0 : m1.RowCounter = 0 <;> simp [h0, logWarn]
  · by_cases h0 : m1.RowCounter = 0 <;>
      simp [h0, List.count_append, count_successCalled_callsFrom]
  · intro s m2 err hs
    have h1 := runFrom_append f pre (s :: post) 0 { m with RowCounter := 0 } m1 [] h
    simp only [Nat.zero_add, List.nil_append] at h1
    obtain ⟨c, tail, ht, hn⟩ :=
      handleError_trace f err (callsFrom 0 pre.length ++ [Event.stepCalled pre.length])
    have hmem : Event.successCalled ∉
        callsFrom 0 pre.length ++ [Event.stepCalled pre.length] ++ tail := by
      simp only [List.mem_append, not_or]
      exact ⟨⟨successCalled_not_mem_callsFrom 0 pre.length, by simp⟩, hn⟩
    cases c with
    | returned u =>
      exact ⟨.returned (), _, by simp only [RunWorkflow, run, h1, runFrom, hs, ht], hmem⟩
    | exited code =>
      exact ⟨.exited code, _, by simp only [RunWorkflow, run, h1, runFrom, hs, ht], hmem⟩
    | panicked msg =>
      exact ⟨.panicked msg, _, by simp only [RunWorkflow, run, h1, runFrom, hs, ht], hmem⟩

theorem RunWorkflow_calls_success_once_witness :
    stepsSucceed [tick] { (⟨7, ()⟩ : Machine Unit) with RowCounter := 0 } = some ⟨1, ()⟩ ∧
    RunWorkflow .osExit [tick] quietSuccess ⟨7, ()⟩
      = ((quietSuccess ⟨1, ()⟩).1, (quietSuccess ⟨1, ()⟩).2,
          callsFrom 0 [tick].length ++
            (if (⟨1, ()⟩ : Machine Unit).RowCounter = 0
              then [Event.logged .warn "0 rows processed"] else []) ++
            [Event.successCalled]) :=
  ⟨rfl, (RunWorkflow_calls_success_once .osExit [tick] [] quietSuccess ⟨7, ()⟩ ⟨1, ()⟩
    rfl).1.1⟩

/-- A run without rows logs the warning and still calls onSuccess; a run with
a failing step does not call it. -/
theorem RunWorkflow_examples :
    (RunWorkflow .osExit [] quietSuccess ⟨7, ()⟩).2.2
      = [.logged .warn "0 rows processed", .successCalled] ∧
    (RunWorkflow .osExit [tick] quietSuccess ⟨7, ()⟩).2.2
      = [.stepCalled 0, .successCalled] ∧
    (RunWorkflow .overridden [tick, boom, tick] quietSuccess ⟨7, ()⟩).2.2
      = [.stepCalled 0, .stepCalled 1, .logged .fatal "boom", .exitRequested 1,
          .exitRequested 3] := by
  decide

/-! ## Theorems: applyTransform -/

theorem applyTransform_hooked (env : Env) (value : Value) (endpoint : Endpoint)
    (s : ApiState) (transform : Callable) (arg : StarlarkValue)
    (hhook : endpoint.Functions "Transform" = some transform)
    (harg : transformArg env value = .ok arg) :
    applyTransform env value endpoint s
      = match transform s.heap.transformCalls arg with
        | .error (.EvalError _ backtrace) =>
          (.error (.plain ("Transform() error: " ++ backtrace)), noteTransformCall s)
        | .error (.other msg) =>
          (.error (.plain ("Transform() error: " ++ msg)), noteTransformCall s)
        | .ok .none =>
          (.error (.plain ("Transform() error: no return statement or None returned. " ++
            "To return no results, use `return []`")), noteTransformCall s)
        | .ok result => collectRecords env (.starlark result) (noteTransformCall s) := by
  cases value
  case starlark v =>
    simp only [transformArg, Except.ok.injEq] at harg
    subst harg
    simp only [applyTransform, hhook]
  all_goals
    simp only [transformArg] at harg
    simp only [applyTransform, hhook, harg]

/-- C12: for an endpoint with a Transform hook and a body that reaches the
hook: if the hook returns the empty list, applyTransform returns zero records
with no error and leaves the row counter as it was; if the hook returns None,
applyTransform returns an error and no records; the two results differ. -/
theorem transform_empty_list_vs_none (env : Env) (value : Value) (s : ApiState)
    (arg : StarlarkValue) (e1 e2 : Endpoint) (t1 t2 : Callable)
    (harg : transformArg env value = .ok arg)
    (h1 : e1.Functions "Transform" = some t1) (h2 : e2.Functions "Transform" = some t2)
    (hempty : t1 s.heap.transformCalls arg = .ok (.list []))
    (hnone : t2 s.heap.transformCalls arg = .ok .none) :
    applyTransform env value e1 s = (.ok [], noteTransformCall s) ∧
    (noteTransformCall s).RowCounter = s.RowCounter ∧
    (∃ msg, applyTransform env value e2 s = (.error (.plain msg), noteTransformCall s)) ∧
    (applyTransform env value e1 s).1 ≠ (applyTransform env value e2 s).1 := by
  have r1 : applyTransform env value e1 s = (.ok [], noteTransformCall s) := by
    rw [applyTransform_hooked env value e1 s t1 arg h1 harg, hempty]
    simp only [collectRecords, starlarkRecords]
  have r2 : applyTransform env value e2 s
      = (.error (.plain ("Transform() error: no return statement or None returned. " ++
          "To return no results, use `return []`")), noteTransformCall s) := by
    rw [applyTransform_hooked env value e2 s t2 arg h2 harg, hnone]
  refine ⟨r1, rfl, ⟨_, r2⟩, ?_⟩
  rw [r1, r2]
  simp

theorem transform_empty_list_vs_none_witness :
    applyTransform (fixedEnv 200 .nil false 0) (.slice [])
        (fixedEndpoint "json" (onlyTransform returnsEmptyList) none) freshState
      = (.ok [], noteTransformCall freshState) ∧
    (noteTransformCall freshState).RowCounter = freshState.RowCounter ∧
    (∃ msg, applyTransform (fixedEnv 200 .nil false 0) (.slice [])
        (fixedEndpoint "json" (onlyTransform returnsNone) none) freshState
      = (.error (.plain msg), noteTransformCall freshState)) ∧
    (applyTransform (fixedEnv 200 .nil false 0) (.slice [])
        (fixedEndpoint "json" (onlyTransform returnsEmptyList) none) freshState).1
      ≠ (applyTransform (fixedEnv 200 .nil false 0) (.slice [])
        (fixedEndpoint "json" (onlyTransform returnsNone) none) freshState).1 :=
  transform_empty_list_vs_none (fixedEnv 200 .nil false 0) (.slice []) freshState
    (.other "marshalled") (fixedEndpoint "json" (onlyTransform returnsEmptyList) none)
    (fixedEndpoint "json" (onlyTransform returnsNone) none) returnsEmptyList returnsNone
    rfl rfl rfl rfl rfl

theorem stringKeyed_asIface (object : dataObject) :
    stringKeyed (object.map (fun kv => (Value.string kv.1, kv.2))) = some object := by
  induction object with
  | nil => rfl
  | cons kv rest ih =>
    obtain ⟨k, v⟩ := kv
    simp only [List.map_cons, stringKeyed, ih]

theorem iterate_IncrementRowCounter_heap (n : Nat) :
    ∀ s : ApiState, (IncrementRowCounter^[n] s).heap = s.heap := by
  induction n with
  | zero => intro s; rfl
  | succ n ih =>
    intro s
    rw [Function.iterate_succ_apply, ih]
    rfl

theorem nativeRecords_objects (objs : List dataObject) :
    ∀ (acc : List dataObject) (s : ApiState),
      nativeRecords (objs.map asIface) acc s
        = (.ok (acc ++ objs), IncrementRowCounter^[objs.length] s) := by
  induction objs with
  | nil => intro acc s; simp [nativeRecords]
  | cons object rest ih =>
    intro acc s
    simp only [List.map_cons, asIface, nativeRecords, stringKeyed_asIface, List.length_cons,
      Function.iterate_succ_apply]
    have := ih (acc ++ [object]) (IncrementRowCounter s)
    simp only [asIface] at this
    rw [this]
    simp

theorem convertStringItems_eq (items : List (String × Value)) :
    convertStringItems items
      = items.map (fun kv => (Value.string kv.1, convertJSONNumbers kv.2)) := by
  induction items with
  | nil => rfl
  | cons kv rest ih =>
    obtain ⟨k, v⟩ := kv
    simp only [convertStringItems, ih, List.map_cons]

theorem convertElems_eq (elems : List Value) :
    convertElems elems = elems.map convertJSONNumbers := by
  induction elems with
  | nil => rfl
  | cons v rest ih => simp only [convertElems, ih, List.map_cons]

theorem convertIfaceItems_eq (items : List (Value × Value)) :
    convertIfaceItems items = items.map (fun kv => (kv.1, convertJSONNumbers kv.2)) := by
  induction items with
  | nil => rfl
  | cons kv rest ih =>
    obtain ⟨k, v⟩ := kv
    simp only [convertIfaceItems, ih, List.map_cons]

theorem convert_decoded_objects (raw : List (List (String × Value))) :
    convertJSONNumbers (.slice (raw.map Value.mapString))
      = .slice ((raw.map convertedObject).map asIface) := by
  simp only [convertJSONNumbers, convertElems_eq, List.map_map, Value.slice.injEq]
  apply List.map_congr_left
  intro object _
  simp only [Function.comp_apply, convertJSONNumbers, convertStringItems_eq, asIface,
    convertedObject, List.map_map]
  rfl

theorem iterate_IncrementRowCounter_value (n : Nat) :
    ∀ s : ApiState, -2 ^ 63 ≤ s.RowCounter → s.RowCounter + n < 2 ^ 63 →
      (IncrementRowCounter^[n] s).RowCounter = s.RowCounter + n := by
  induction n with
  | zero => intro s _ _; simp
  | succ n ih =>
    intro s hlo hhi
    have h1 : (IncrementRowCounter s).RowCounter = s.RowCounter + 1 := by
      simp only [IncrementRowCounter, wrapInt64]
      push_cast at hhi
      omega
    rw [Function.iterate_succ_apply, ih (IncrementRowCounter s) (by rw [h1]; omega)
      (by rw [h1]; push_cast at hhi ⊢; omega), h1]
    push_cast
    omega

/-- C13: for an endpoint without a Transform hook, applyTransform turns an
array of n string-keyed objects into exactly those n records, in array order
and with the same keys and values, and calls IncrementRowCounter exactly n
times; the same holds for a decoded JSON array of n objects passed through
convertJSONNumbers (values with numbers as text). As long as the int64 counter
does not overflow it grows by n, so from 0 it ends at n. -/
theorem applyTransform_counts_json_array (env : Env) (endpoint : Endpoint) (s : ApiState)
    (hhook : endpoint.Functions "Transform" = none) :
    (∀ objs : List dataObject,
      applyTransform env (.slice (objs.map asIface)) endpoint s
        = (.ok objs, IncrementRowCounter^[objs.length] s)) ∧
    (∀ raw : List (List (String × Value)),
      applyTransform env (convertJSONNumbers (.slice (raw.map Value.mapString))) endpoint s
        = (.ok (raw.map convertedObject), IncrementRowCounter^[raw.length] s)) ∧
    (∀ n : Nat, -2 ^ 63 ≤ s.RowCounter → s.RowCounter + n < 2 ^ 63 →
      (IncrementRowCounter^[n] s).RowCounter = s.RowCounter + n) ∧
    (∀ n : Nat, s.RowCounter = 0 → (n : Int) < 2 ^ 63 →
      (IncrementRowCounter^[n] s).RowCounter = n) := by
  have hobjs : ∀ objs : List dataObject,
      applyTransform env (.slice (objs.map asIface)) endpoint s
        = (.ok objs, IncrementRowCounter^[objs.length] s) := by
    intro objs
    simp only [applyTransform, hhook, collectRecords, nativeRecords_objects, List.nil_append]
  refine ⟨hobjs, ?_, fun n => iterate_IncrementRowCounter_value n s, ?_⟩
  · intro raw
    rw [convert_decoded_objects, hobjs, List.length_map]
  · intro n h0 hn
    rw [iterate_IncrementRowCounter_value n s (by rw [h0]; decide) (by rw [h0]; omega), h0]
    simp

theorem applyTransform_counts_json_array_witness :
    (fixedEndpoint "json" (fun _ => none) none).Functions "Transform" = none ∧
    applyTransform (fixedEnv 200 .nil false 0)
        (convertJSONNumbers (.slice (threeObjects.map Value.mapString)))
        (fixedEndpoint "json" (fun _ => none) none) freshState
      = (.ok (threeObjects.map convertedObject),
          IncrementRowCounter^[threeObjects.length] freshState) :=
  ⟨rfl, (applyTransform_counts_json_array (fixedEnv 200 .nil false 0)
    (fixedEndpoint "json" (fun _ => none) none) freshState rfl).2.1 threeObjects⟩

/-- A JSON array of three objects and no Transform hook: three records, in
order, and a row counter of 3 after one request. -/
theorem three_objects_example :
    requestAllPages (fixedEnv 200 (.slice (threeObjects.map Value.mapString)) false 0)
        (fixedEndpoint "json" (fun _ => none) none) 2 freshState
      = some (.ok [[("id", .string "1"), ("name", .string "a")],
                   [("id", .string "2"), ("name", .string "b")],
                   [("id", .string "3"), ("name", .nil)]],
          ⟨3, ⟨["http://api/items?page=\x7bpage\x7d"], 0, 0, 1, 1⟩⟩) := rfl

/-! ## Theorems: rows of the staging file -/

theorem fillBuffer_some (object : dataObject) (headers : List String) :
    ∀ row, fillBuffer object headers = some row →
      row.map some = headers.map (fun key => serializeCell (index object key)) := by
  induction headers with
  | nil =>
    intro row h
    simp only [fillBuffer, Option.some.injEq] at h
    subst h
    rfl
  | cons key rest ih =>
    intro row h
    simp only [fillBuffer] at h
    split at h
    · rename_i field fields hc hf
      simp only [Option.some.injEq] at h
      subst h
      simp only [List.map_cons, hc, ih fields hf]
    · simp at h

theorem fillBuffer_total (object : dataObject) (headers : List String)
    (hcells : ∀ key ∈ headers, serializeCell (index object key) ≠ none) :
    ∃ row, fillBuffer object headers = some row := by
  induction headers with
  | nil => exact ⟨[], rfl⟩
  | cons key rest ih =>
    obtain ⟨fields, hf⟩ := ih (fun k hk => hcells k (List.mem_cons_of_mem _ hk))
    cases hc : serializeCell (index object key) with
    | none => exact absurd hc (hcells key (List.mem_cons_self _ _))
    | some field => exact ⟨field :: fields, by simp only [fillBuffer, hc, hf]⟩

theorem writeRows_ok (env : Env) (headers : List String) (results : List dataObject) :
    ∀ (i : Nat) (written rows : List (List String)),
      writeRows env headers results i written = .ok rows →
      rows.map (List.map some) = written.map (List.map some) ++
        results.map (fun object => headers.map (fun key => serializeCell (index object key))) := by
  induction results with
  | nil =>
    intro i written rows h
    simp only [writeRows, Res.ok.injEq] at h
    subst h
    simp
  | cons object rest ih =>
    intro i written rows h
    simp only [writeRows] at h
    split at h
    · simp at h
    · rename_i writeBuffer hb
      split at h
      · simp at h
      · rw [ih _ _ _ h, List.map_append, List.map_cons, List.map_nil,
          fillBuffer_some object headers writeBuffer hb]
        simp

theorem writeRows_total (env : Env) (headers : List String) (results : List dataObject)
    (hwrite : ∀ i, env.writeError i = none)
    (hcells : ∀ object ∈ results, ∀ key ∈ headers, serializeCell (index object key) ≠ none) :
    ∀ (i : Nat) (written : List (List String)),
      ∃ rows, writeRows env headers results i written = .ok rows := by
  induction results with
  | nil => intro i written; exact ⟨written, rfl⟩
  | cons object rest ih =>
    intro i written
    obtain ⟨row, hr⟩ := fillBuffer_total object headers (hcells object (List.mem_cons_self _ _))
    obtain ⟨rows, hrows⟩ := ih (fun o ho => hcells o (List.mem_cons_of_mem _ ho)) (i + 1)
      (written ++ [row])
    exact ⟨rows, by simp only [writeRows, hr, hwrite i, hrows]⟩

theorem saveResultsToCSV_ok_inv (env : Env) (endpointName : String)
    (results : List dataObject) (columns : Option (List Column))
    (rows : List (List String)) (path : String)
    (h : saveResultsToCSV env endpointName results columns = .ok (rows, path)) :
    ∃ headers, csvHeaders results columns = some headers ∧
      writeRows env headers results 0 [] = .ok rows := by
  unfold saveResultsToCSV at h
  split at h
  · simp at h
  · split at h
    · simp at h
    · rename_i headers hh
      split at h
      · simp at h
      · simp at h
      · rename_i rows1 hw
        refine ⟨headers, hh, ?_⟩
        split at h
        · simp at h
        · split at h
          · split at h
            · simp at h
            · simp only [Res.ok.injEq, Prod.mk.injEq] at h
              rw [hw, h.1]
          · simp only [Res.ok.injEq, Prod.mk.injEq] at h
            rw [hw, h.1]

/-- C11: with import columns supplied, whenever saveResultsToCSV succeeds the
rows of the artifact are exactly one row per record, in record order, nothing
before them; each row has as many fields as there are import columns and field
i is the serialized value the record holds under the name of import column i.
It does succeed whenever the temporary file can be created, written, closed
(and, in preview mode, read back) and every such value is one the cell switch
serializes. -/
theorem saveResultsToCSV_rows (env : Env) (endpointName : String)
    (results : List dataObject) (cols : List Column) :
    (∀ rows path, saveResultsToCSV env endpointName results (some cols) = .ok (rows, path) →
      rows.map (List.map some)
        = results.map (fun object =>
            cols.map (fun column => serializeCell (index object column.Name))) ∧
      rows.length = results.length ∧ ∀ row ∈ rows, row.length = cols.length) ∧
    ((∃ tmpfile, env.TempFile endpointName = .ok tmpfile) →
      (∀ i, env.writeError i = none) → env.closeError = none →
      (env.Preview = true → env.readFileError = none) →
      (∀ object ∈ results, ∀ column ∈ cols,
        serializeCell (index object column.Name) ≠ none) →
      ∃ rows path, saveResultsToCSV env endpointName results (some cols) = .ok (rows, path)) := by
  constructor
  · intro rows path h
    obtain ⟨headers, hh, hw⟩ := saveResultsToCSV_ok_inv env endpointName results _ rows path h
    simp only [csvHeaders, Option.some.injEq] at hh
    subst hh
    have heq := writeRows_ok env _ results 0 [] rows hw
    simp only [List.map_nil, List.nil_append, List.map_map] at heq
    have heq2 : rows.map (List.map some)
        = results.map (fun object =>
            cols.map (fun column => serializeCell (index object column.Name))) := by
      rw [heq]
      rfl
    refine ⟨heq2, ?_, ?_⟩
    · have := congrArg List.length heq2
      simpa using this
    · intro row hrow
      have hmem : row.map some ∈ rows.map (List.map some) := List.mem_map_of_mem _ hrow
      rw [heq2, List.mem_map] at hmem
      obtain ⟨object, _, ho⟩ := hmem
      have := congrArg List.length ho
      simpa using this.symm
  · rintro ⟨tmpfile, htmp⟩ hwrite hclose hread hcells
    obtain ⟨rows, hrows⟩ := writeRows_total env (cols.map (fun column => column.Name)) results
      hwrite (by
        intro object ho key hk
        rw [List.mem_map] at hk
        obtain ⟨column, hc, rfl⟩ := hk
        exact hcells object ho column hc) 0 []
    refine ⟨rows, tmpfile, ?_⟩
    by_cases hp : env.Preview = true
    · simp only [saveResultsToCSV, htmp, csvHeaders, hrows, hclose, hp, hread hp, if_true]
    · simp only [saveResultsToCSV, htmp, csvHeaders, hrows, hclose, hp, if_false]
      rfl

theorem saveResultsToCSV_rows_witness :
    ∃ rows path, saveResultsToCSV (fixedEnv 200 .nil false 0) "items" [sampleRecord]
        (some [col "active", col "count", col "seen_at"]) = .ok (rows, path) :=
  (saveResultsToCSV_rows (fixedEnv 200 .nil false 0) "items" [sampleRecord]
    [col "active", col "count", col "seen_at"]).2 ⟨_, rfl⟩ (fun _ => rfl) rfl
    (fun h => absurd h (by decide)) (by decide)

/-- The record `{active: true, count: null, seen_at: T}` staged over the
columns active, count, seen_at: the artifact is the single row "true", "",
RFC 3339 text of T, in column order and without a header row. -/
theorem saveResultsToCSV_example :
    saveResultsToCSV (fixedEnv 200 .nil false 0) "items" [sampleRecord]
        (some [col "active", col "count", col "seen_at"])
      = .ok ([["true", "", "2004-08-19T18:51:06Z"]], "/tmp/extract-api-items.csv") := by
  rfl

/-! ## Theorems: convertJSONNumbers -/

mutual
theorem convertJSONNumbersErr_eq :
    ∀ v : Value, convertJSONNumbersErr v = (convertJSONNumbers v, none)
  | .Number lit => rfl
  | .slice elems => by
    simp only [convertJSONNumbersErr, convertJSONNumbers, convertElemsErr_eq elems]
  | .mapIface items => by
    simp only [convertJSONNumbersErr, convertJSONNumbers, convertIfaceItemsErr_eq items]
  | .mapString items => by
    simp only [convertJSONNumbersErr, convertJSONNumbers, convertStringItemsErr_eq items]
  | .nil => rfl
  | .string _ => rfl
  | .bool _ => rfl
  | .int _ => rfl
  | .int64 _ => rfl
  | .Time _ => rfl
  | .bytes _ => rfl
  | .table _ => rfl
  | .starlark _ => rfl
  | .other _ => rfl
theorem convertElemsErr_eq :
    ∀ elems : List Value, convertElemsErr elems = (convertElems elems, none)
  | [] => rfl
  | val :: rest => by
    simp only [convertElemsErr, convertElems, convertJSONNumbersErr_eq val,
      convertElemsErr_eq rest]
theorem convertIfaceItemsErr_eq :
    ∀ items : List (Value × Value),
      convertIfaceItemsErr items = (convertIfaceItems items, none)
  | [] => rfl
  | (key, val) :: rest => by
    simp only [convertIfaceItemsErr, convertIfaceItems, convertJSONNumbersErr_eq val,
      convertIfaceItemsErr_eq rest]
theorem convertStringItemsErr_eq :
    ∀ items : List (String × Value),
      convertStringItemsErr items = (convertStringItems items, none)
  | [] => rfl
  | (key, val) :: rest => by
    simp only [convertStringItemsErr, convertStringItems, convertJSONNumbersErr_eq val,
      convertStringItemsErr_eq rest]
end

mutual
theorem convert_asText :
    ∀ t : Value, isDecodedJSON t = true →
      numbersAsText t (convertJSONNumbers t) = true ∧
        numberFree (convertJSONNumbers t) = true
  | .Number lit => fun _ => by simp [convertJSONNumbers, numbersAsText, numberFree]
  | .nil => fun _ => by simp [convertJSONNumbers, numbersAsText, numberFree]
  | .string _ => fun _ => by simp [convertJSONNumbers, numbersAsText, numberFree]
  | .bool _ => fun _ => by simp [convertJSONNumbers, numbersAsText, numberFree]
  | .slice elems => fun h => by
    simp only [isDecodedJSON] at h
    simpa only [convertJSONNumbers, numbersAsText, numberFree] using
      convertElems_asText elems h
  | .mapString items => fun h => by
    simp only [isDecodedJSON] at h
    simpa only [convertJSONNumbers, numbersAsText, numberFree] using
      convertStringItems_asText items h
  | .mapIface _ => fun h => by simp [isDecodedJSON] at h
  | .int _ => fun h => by simp [isDecodedJSON] at h
  | .int64 _ => fun h => by simp [isDecodedJSON] at h
  | .Time _ => fun h => by simp [isDecodedJSON] at h
  | .bytes _ => fun h => by simp [isDecodedJSON] at h
  | .table _ => fun h => by simp [isDecodedJSON] at h
  | .starlark _ => fun h => by simp [isDecodedJSON] at h
  | .other _ => fun h => by simp [isDecodedJSON] at h
theorem convertElems_asText :
    ∀ elems : List Value, allDecodedJSON elems = true →
      elemsAsText elems (convertElems elems) = true ∧
        allNumberFree (convertElems elems) = true
  | [] => fun _ => by simp [convertElems, elemsAsText, allNumberFree]
  | val :: rest => fun h => by
    simp only [allDecodedJSON, Bool.and_eq_true] at h
    have h1 := convert_asText val h.1
    have h2 := convertElems_asText rest h.2
    simp [convertElems, elemsAsText, allNumberFree, h1.1, h1.2, h2.1, h2.2]
theorem convertStringItems_asText :
    ∀ items : List (String × Value), allValuesDecodedJSON items = true →
      itemsAsText items (convertStringItems items) = true ∧
        allItemsNumberFree (convertStringItems items) = true
  | [] => fun _ => by simp [convertStringItems, itemsAsText, allItemsNumberFree]
  | (key, val) :: rest => fun h => by
    simp only [allValuesDecodedJSON, Bool.and_eq_true] at h
    have h1 := convert_asText val h.1
    have h2 := convertStringItems_asText rest h.2
    simp [convertStringItems, itemsAsText, allItemsNumberFree, numberFree, h1.1, h1.2,
      h2.1, h2.2]
end

/-- C14: for every tree decoded with number-preserving decoding,
convertJSONNumbers reports no error, and its result has the shape of the input
with every number literal, at every depth, replaced by the string of its
literal text: lists keep length and order, mappings keep their keys, strings,
booleans and null are unchanged; and the result holds no number anywhere. -/
theorem convertJSONNumbers_numbers_as_text (t : Value) (h : isDecodedJSON t = true) :
    convertJSONNumbersErr t = (convertJSONNumbers t, none) ∧
    numbersAsText t (convertJSONNumbers t) = true ∧
    numberFree (convertJSONNumbers t) = true :=
  ⟨convertJSONNumbersErr_eq t, (convert_asText t h).1, (convert_asText t h).2⟩

theorem convertJSONNumbers_numbers_as_text_witness :
    isDecodedJSON deepTree = true ∧
    convertJSONNumbersErr deepTree = (convertJSONNumbers deepTree, none) ∧
    numbersAsText deepTree (convertJSONNumbers deepTree) = true ∧
    numberFree (convertJSONNumbers deepTree) = true :=
  ⟨rfl, convertJSONNumbers_numbers_as_text deepTree rfl⟩

/-- The tree `{"a": 1.50, "b": [2, {"c": 3e2, "d": "x"}], "e": null, "f": true}`
after conversion: every number is the string of its literal text. -/
theorem convertJSONNumbers_example :
    convertJSONNumbers deepTree
      = .mapIface [(.string "a", .string "1.50"),
          (.string "b", .slice [.string "2",
            .mapIface [(.string "c", .string "3e2"), (.string "d", .string "x")]]),
          (.string "e", .nil), (.string "f", .bool true)] := rfl

/-! ## Theorems: the empty record list -/

/-- On the empty record list determineImportColumns panics for every
destination table, and saveResultsToCSV without import columns panics whenever
the temporary file could be created; with import columns it writes no row. -/
theorem empty_results_outcomes (env : Env) (destinationTable : Table) (endpointName : String)
    (tmpfile : String) (cols : List Column) (htmp : env.TempFile endpointName = .ok tmpfile) :
    determineImportColumns destinationTable []
      = .panic "runtime error: index out of range [0] with length 0" ∧
    saveResultsToCSV env endpointName [] none
      = .panic "runtime error: index out of range [0] with length 0" ∧
    ∀ rows path, saveResultsToCSV env endpointName [] (some cols) = .ok (rows, path) →
      rows = [] := by
  refine ⟨rfl, ?_, ?_⟩
  · simp only [saveResultsToCSV, htmp, csvHeaders]
  · intro rows path h
    obtain ⟨headers, _, hw⟩ := saveResultsToCSV_ok_inv env endpointName [] _ rows path h
    simp only [writeRows, Res.ok.injEq] at hw
    exact hw.symm

/-- C16: the empty record list makes both operations panic on `results[0]`.
An extraction whose Transform hook returns the empty list (or whose JSON body
is the empty array) succeeds with zero records; determineImportColumns then
panics with an index out of range, and so does saveResultsToCSV called
without import columns. -/
theorem empty_results_index_out_of_range :
    (requestAllPages (fixedEnv 200 .nil false 0)
        (fixedEndpoint "json" (onlyTransform returnsEmptyList) none) 2 freshState).map Prod.fst
      = some (.ok []) ∧
    (requestAllPages (fixedEnv 200 (.slice []) false 0)
        (fixedEndpoint "json" (fun _ => none) none) 2 freshState).map Prod.fst
      = some (.ok []) ∧
    determineImportColumns ⟨"example", "widgets", [col "id"]⟩ []
      = .panic "runtime error: index out of range [0] with length 0" ∧
    saveResultsToCSV (fixedEnv 200 .nil false 0) "items" [] none
      = .panic "runtime error: index out of range [0] with length 0" :=
  ⟨rfl, rfl, rfl, rfl⟩

end Teleport
